import Mathlib

/-!
# Verification of the boutique-chic-pos record store and sale processor

This file gives a shallow embedding, in Lean 4, of the core of the
boutique-chic-pos backend: the pandas/CSV record store
(`backend/app/database/csv_handler.py`), the per-entity record processing
(codec) functions, the sale-creation pipeline and analytics endpoint
(`backend/app/api/sales.py`), and the product-creation endpoint
(`backend/app/api/products.py`).  Theorems about these definitions settle
the claims of the accompanying specification.

Modelling conventions:
* Python floats are modelled as exact rationals (`Rat`).  All float
  arithmetic exercised by the claims (comparison, addition, subtraction,
  division by a count) is exact at the claims' values, so the rational
  model is faithful there; float rounding is out of scope.
* The CSV file on disk is identified with the in-memory table
  (`List Row`): every mutating handler call returns the table it persists,
  and every read works from that table.
* Python's `json` module is modelled by an executable printer
  (`dchars`, mirroring `json.dumps` with its default
  `ensure_ascii=True` and `(", ", ": ")` separators) and an executable
  recursive-descent parser (`parseF` / `parseJson`, mirroring the strict
  `json.loads` grammar).  JSON values are a first-order chain encoding
  (`jarrCons`/`jobjCons`) so that every function on them is structurally
  recursive and kernel-evaluable.
-/

namespace BoutiquePos

/-! ## JSON values

Python's `json.dumps` / `json.loads` pair, used by the handlers to embed
structured sub-fields (variants, items, preferences, permissions) in a
single CSV cell.  Arrays and objects are chain-encoded: `jarrCons h t`
is the array with head `h` whose remaining elements are the chain `t`
(ending in `jarrNil`), and similarly for objects.  `jnum` stands for any
Python float produced by parsing (fractional or exponent literals and
the `NaN`/`Infinity` constants); its rational payload is the exact value
of the decimal literal, abstracting the float rounding that the claims
never observe. -/

inductive Json where
  | jnull
  | jbool (b : Bool)
  | jint (n : Int)
  | jnum (q : Rat)
  | jstr (s : String)
  | jarrNil
  | jarrCons (hd : Json) (tl : Json)
  | jobjNil
  | jobjCons (k : String) (v : Json) (tl : Json)
  deriving DecidableEq

/-- Build a chain-encoded JSON array from a list of values. -/
def jarrOfList : List Json → Json
  | [] => Json.jarrNil
  | x :: xs => Json.jarrCons x (jarrOfList xs)

/-- Build a chain-encoded JSON object from an ordered field list. -/
def jobjOfFields : List (String × Json) → Json
  | [] => Json.jobjNil
  | (k, v) :: xs => Json.jobjCons k v (jobjOfFields xs)

/-! ### Characters used by the JSON text form

Named characters are given by code point to keep the text layer explicit. -/

def quoteC : Char := Char.ofNat 34
def backslashC : Char := Char.ofNat 92
def obraceC : Char := Char.ofNat 123
def cbraceC : Char := Char.ofNat 125

def isWsC (c : Char) : Bool :=
  c = ' ' || c = Char.ofNat 9 || c = Char.ofNat 10 || c = Char.ofNat 13

def isDigitC (c : Char) : Bool := '0' ≤ c && c ≤ '9'

def digitChar (n : Nat) : Char := Char.ofNat (48 + n)

/-- Lowercase hex digit, as used by `json.dumps` in `\uXXXX` escapes. -/
def hexDigitLower (n : Nat) : Char :=
  if n < 10 then Char.ofNat (48 + n) else Char.ofNat (87 + n)

/-- The six characters of a `\uXXXX` escape for code unit `n < 0x10000`. -/
def uEscape (n : Nat) : List Char :=
  [backslashC, 'u', hexDigitLower (n / 4096 % 16), hexDigitLower (n / 256 % 16),
   hexDigitLower (n / 16 % 16), hexDigitLower (n % 16)]

/-- `json.dumps` escaping of one character (`ensure_ascii=True`): quote and
backslash get two-character escapes, the five named control characters get
theirs, every other character outside `0x20`–`0x7E` becomes `\uXXXX`
(a surrogate pair for astral code points), and the rest pass through. -/
def escapeChar (c : Char) : List Char :=
  let n := c.toNat
  if c = quoteC then [backslashC, quoteC]
  else if c = backslashC then [backslashC, backslashC]
  else if n = 8 then [backslashC, 'b']
  else if n = 9 then [backslashC, 't']
  else if n = 10 then [backslashC, 'n']
  else if n = 12 then [backslashC, 'f']
  else if n = 13 then [backslashC, 'r']
  else if n < 32 || 126 < n then
    if n < 65536 then uEscape n
    else uEscape (55296 + (n - 65536) / 1024) ++ uEscape (56320 + (n - 65536) % 1024)
  else [c]

def escList : List Char → List Char
  | [] => []
  | c :: cs => escapeChar c ++ escList cs

/-- Decimal digits of `n`, most significant first; `fuel` bounds the
recursion so the definition is structural and kernel-evaluable. -/
def natDigitsAux : Nat → Nat → List Char
  | 0, _ => []
  | f + 1, n => if n < 10 then [digitChar n] else natDigitsAux f (n / 10) ++ [digitChar (n % 10)]

def natChars (n : Nat) : List Char := natDigitsAux (n + 1) n

/-- Python `str` of an int: optional minus sign then decimal digits. -/
def intChars (i : Int) : List Char :=
  if i < 0 then '-' :: natChars i.natAbs else natChars i.natAbs

/-- Decimal fraction digits of `r / den` by long division; stops at
remainder zero or when the fuel runs out. -/
def fracDigitsAux : Nat → Nat → Nat → List Char
  | 0, _, _ => []
  | f + 1, r, den =>
    if r = 0 then [] else digitChar (r * 10 / den) :: fracDigitsAux f (r * 10 % den) den

/-- Text form of a float value, mirroring Python `repr` on the values the
system writes: integral floats print as `n.0` and terminating decimal
fractions print exactly.  (A repeating fraction is truncated at 30 digits;
no code path the claims exercise serializes such a value.) -/
def floatChars (q : Rat) : List Char :=
  let sign : List Char := if q < 0 then ['-'] else []
  let a := q.num.natAbs
  let ip := a / q.den
  let r := a % q.den
  sign ++ natChars ip ++ '.' :: (if r = 0 then ['0'] else fracDigitsAux 30 r q.den)

/-- Printing mode: a value, the tail of an array after its first element,
or the tail of an object after its first field. -/
inductive PMode where
  | val
  | atail
  | otail
  deriving DecidableEq

/-- The text `json.dumps` produces (default separators `", "` and `": "`,
`ensure_ascii=True`), over the chain encoding.  In tail modes the
constructors other than the matching chain constructors cannot arise from
well-formed values; they print as the closing bracket alone. -/
def dchars : PMode → Json → List Char
  | .val, .jnull => ['n', 'u', 'l', 'l']
  | .val, .jbool true => ['t', 'r', 'u', 'e']
  | .val, .jbool false => ['f', 'a', 'l', 's', 'e']
  | .val, .jint i => intChars i
  | .val, .jnum q => floatChars q
  | .val, .jstr s => quoteC :: escList s.data ++ [quoteC]
  | .val, .jarrNil => ['[', ']']
  | .val, .jarrCons hd tl => '[' :: dchars .val hd ++ dchars .atail tl
  | .val, .jobjNil => [obraceC, cbraceC]
  | .val, .jobjCons k v tl =>
      obraceC :: quoteC :: escList k.data ++ quoteC :: ':' :: ' ' :: dchars .val v ++ dchars .otail tl
  | .atail, .jarrCons hd tl => ',' :: ' ' :: dchars .val hd ++ dchars .atail tl
  | .atail, _ => [']']
  | .otail, .jobjCons k v tl =>
      ',' :: ' ' :: quoteC :: escList k.data ++ quoteC :: ':' :: ' ' :: dchars .val v ++ dchars .otail tl
  | .otail, _ => [cbraceC]

/-- `json.dumps` as a string-producing function. -/
def dumps (j : Json) : String := ⟨dchars .val j⟩

/-! ### The `json.loads` parser

A strict recursive-descent parser over `List Char`, following the grammar
the Python `json` module accepts with its defaults: arbitrary whitespace
between tokens; strings with the nine named escapes plus `\uXXXX`
(surrogate pairs recombined; an unpaired surrogate is accepted, its value
modelled as U+FFFD since a lone surrogate is not a Lean `Char`); number
literals `-?(0|[1-9][0-9]*)(\.[0-9]+)?([eE][+-]?[0-9]+)?`; and the
constants `NaN`, `Infinity`, `-Infinity` (accepted, value abstracted as
`jnum 0`).  Unescaped control characters below `0x20` are rejected, as in
strict mode.  Nesting is bounded by a fuel argument so the definition is
structural; `parseJson` supplies fuel exceeding the input length, which
the round-trip proofs show is always enough. -/

def skipWsL : List Char → List Char
  | [] => []
  | c :: cs => if isWsC c then skipWsL cs else c :: cs

def hexVal (c : Char) : Option Nat :=
  if '0' ≤ c && c ≤ '9' then some (c.toNat - 48)
  else if 'a' ≤ c && c ≤ 'f' then some (c.toNat - 87)
  else if 'A' ≤ c && c ≤ 'F' then some (c.toNat - 55)
  else none

/-- A pending high surrogate read from a `\uXXXX` escape but not yet
emitted: the scanner must look at the next escape before deciding whether
it pairs.  `flushPend` is what a pending surrogate becomes when the
lookahead fails: Python keeps the lone surrogate in the string; a lone
surrogate is not a Lean `Char`, so its value is modelled as U+FFFD (the
scanner still accepts exactly the inputs Python accepts). -/
def flushPend : Option Nat → List Char
  | none => []
  | some _ => [Char.ofNat 65533]

/-- Body of a JSON string literal, the opening quote already consumed;
`pend` carries a pending high surrogate (see `flushPend`).  Returns the
decoded characters and the text after the closing quote.  Mirrors
`py_scanstring`: the nine named escapes, `\uXXXX` with surrogate-pair
recombination, rejection of unescaped control characters, of invalid
escapes, and of malformed `\uXXXX`. -/
def pscan : Option Nat → List Char → Option (List Char × List Char)
  | _, [] => none
  | pend, c :: cs =>
    if c = quoteC then some (flushPend pend, cs)
    else if c = backslashC then
      match cs with
      | [] => none
      | e :: cs2 =>
        if e = 'u' then
          match cs2 with
          | h1 :: h2 :: h3 :: h4 :: cs3 =>
            match hexVal h1, hexVal h2, hexVal h3, hexVal h4 with
            | some a, some b, some c2, some d =>
              let m := 4096 * a + 256 * b + 16 * c2 + d
              match pend with
              | some n =>
                if 56320 ≤ m ∧ m ≤ 57343 then
                  (pscan none cs3).map
                    (fun p => (Char.ofNat (65536 + (n - 55296) * 1024 + (m - 56320)) :: p.1, p.2))
                else if 55296 ≤ m ∧ m ≤ 56319 then
                  (pscan (some m) cs3).map (fun p => (Char.ofNat 65533 :: p.1, p.2))
                else
                  (pscan none cs3).map (fun p => (Char.ofNat 65533 :: Char.ofNat m :: p.1, p.2))
              | none =>
                if 55296 ≤ m ∧ m ≤ 56319 then pscan (some m) cs3
                else if 56320 ≤ m ∧ m ≤ 57343 then
                  (pscan none cs3).map (fun p => (Char.ofNat 65533 :: p.1, p.2))
                else (pscan none cs3).map (fun p => (Char.ofNat m :: p.1, p.2))
            | _, _, _, _ => none
          | _ => none
        else if e = quoteC then (pscan none cs2).map (fun p => (flushPend pend ++ quoteC :: p.1, p.2))
        else if e = backslashC then
          (pscan none cs2).map (fun p => (flushPend pend ++ backslashC :: p.1, p.2))
        else if e = '/' then (pscan none cs2).map (fun p => (flushPend pend ++ '/' :: p.1, p.2))
        else if e = 'b' then
          (pscan none cs2).map (fun p => (flushPend pend ++ Char.ofNat 8 :: p.1, p.2))
        else if e = 'f' then
          (pscan none cs2).map (fun p => (flushPend pend ++ Char.ofNat 12 :: p.1, p.2))
        else if e = 'n' then
          (pscan none cs2).map (fun p => (flushPend pend ++ Char.ofNat 10 :: p.1, p.2))
        else if e = 'r' then
          (pscan none cs2).map (fun p => (flushPend pend ++ Char.ofNat 13 :: p.1, p.2))
        else if e = 't' then
          (pscan none cs2).map (fun p => (flushPend pend ++ Char.ofNat 9 :: p.1, p.2))
        else none
    else if c.toNat < 32 then none
    else (pscan none cs).map (fun p => (flushPend pend ++ c :: p.1, p.2))

def parseStrChars (cs : List Char) : Option (List Char × List Char) := pscan none cs

/-- Longest leading digit run. -/
def readDigits : List Char → List Char × List Char
  | [] => ([], [])
  | c :: cs =>
    if isDigitC c then
      let p := readDigits cs
      (c :: p.1, p.2)
    else ([], c :: cs)

def digitsVal (ds : List Char) : Nat := ds.foldl (fun acc c => 10 * acc + (c.toNat - 48)) 0

/-- Number literal, positioned at its first digit (sign already consumed,
recorded in `neg`).  Follows the `json` module's number regex: integer
part `0` or a nonzero-led digit run, then an optional fraction (a dot
followed by at least one digit, otherwise not consumed), then an optional
exponent. -/
def parseNumber (cs : List Char) (neg : Bool) : Option (Json × List Char) :=
  match cs with
  | [] => none
  | c :: cs' =>
    if ¬ isDigitC c then none
    else
      let ipPair : List Char × List Char :=
        if c = '0' then (['0'], cs') else readDigits (c :: cs')
      let ip := ipPair.1
      let rest0 := ipPair.2
      let fracPair : List Char × List Char :=
        match rest0 with
        | '.' :: d :: ds => if isDigitC d then readDigits (d :: ds) else ([], rest0)
        | _ => ([], rest0)
      let fr := fracPair.1
      let rest1 := if fr.isEmpty then rest0 else fracPair.2
      let expPart : Option (Bool × List Char) × List Char :=
        match rest1 with
        | 'e' :: '+' :: d :: ds =>
            if isDigitC d then
              let p := readDigits (d :: ds); (some (false, p.1), p.2)
            else (none, rest1)
        | 'e' :: '-' :: d :: ds =>
            if isDigitC d then
              let p := readDigits (d :: ds); (some (true, p.1), p.2)
            else (none, rest1)
        | 'e' :: d :: ds =>
            if isDigitC d then
              let p := readDigits (d :: ds); (some (false, p.1), p.2)
            else (none, rest1)
        | 'E' :: '+' :: d :: ds =>
            if isDigitC d then
              let p := readDigits (d :: ds); (some (false, p.1), p.2)
            else (none, rest1)
        | 'E' :: '-' :: d :: ds =>
            if isDigitC d then
              let p := readDigits (d :: ds); (some (true, p.1), p.2)
            else (none, rest1)
        | 'E' :: d :: ds =>
            if isDigitC d then
              let p := readDigits (d :: ds); (some (false, p.1), p.2)
            else (none, rest1)
        | _ => (none, rest1)
      let rest2 := expPart.2
      if fr.isEmpty ∧ expPart.1.isNone then
        let v : Int := (digitsVal ip : Int)
        some (Json.jint (if neg then -v else v), rest2)
      else
        let base : Rat := (digitsVal ip : Rat) + (digitsVal fr : Rat) / ((10 : Rat) ^ fr.length)
        let scaled : Rat :=
          match expPart.1 with
          | none => base
          | some (false, ds) => base * (10 : Rat) ^ digitsVal ds
          | some (true, ds) => base / (10 : Rat) ^ digitsVal ds
        some (Json.jnum (if neg then -scaled else scaled), rest2)

/-- One step of the recursive-descent parser.  In mode `.val` it parses a
JSON value; in mode `.atail` the remainder of an array after an element
(expecting `,` or `]`), returned as an array chain; in mode `.otail` the
remainder of an object after a field.  Each nested parse spends one unit
of fuel. -/
def parseF : Nat → PMode → List Char → Option (Json × List Char)
  | 0, _, _ => none
  | f + 1, .val, cs =>
    match skipWsL cs with
    | [] => none
    | c :: cs' =>
      if c = quoteC then (parseStrChars cs').map (fun p => (Json.jstr ⟨p.1⟩, p.2))
      else if c = '[' then
        match skipWsL cs' with
        | ']' :: r => some (Json.jarrNil, r)
        | cs'' =>
          match parseF f .val cs'' with
          | none => none
          | some (v, r) =>
            match parseF f .atail r with
            | none => none
            | some (tl, r') => some (Json.jarrCons v tl, r')
      else if c = obraceC then
        match skipWsL cs' with
        | [] => none
        | d :: r =>
          if d = cbraceC then some (Json.jobjNil, r)
          else if d = quoteC then
            match parseStrChars r with
            | none => none
            | some (k, r1) =>
              match skipWsL r1 with
              | ':' :: r2 =>
                match parseF f .val r2 with
                | none => none
                | some (v, r3) =>
                  match parseF f .otail r3 with
                  | none => none
                  | some (tl, r4) => some (Json.jobjCons ⟨k⟩ v tl, r4)
              | _ => none
          else none
      else if c = 't' then
        match cs' with
        | 'r' :: 'u' :: 'e' :: r => some (Json.jbool true, r)
        | _ => none
      else if c = 'f' then
        match cs' with
        | 'a' :: 'l' :: 's' :: 'e' :: r => some (Json.jbool false, r)
        | _ => none
      else if c = 'n' then
        match cs' with
        | 'u' :: 'l' :: 'l' :: r => some (Json.jnull, r)
        | _ => none
      else if c = 'N' then
        match cs' with
        | 'a' :: 'N' :: r => some (Json.jnum 0, r)
        | _ => none
      else if c = 'I' then
        match cs' with
        | 'n' :: 'f' :: 'i' :: 'n' :: 'i' :: 't' :: 'y' :: r => some (Json.jnum 0, r)
        | _ => none
      else if c = '-' then
        match cs' with
        | 'I' :: 'n' :: 'f' :: 'i' :: 'n' :: 'i' :: 't' :: 'y' :: r => some (Json.jnum 0, r)
        | _ => parseNumber cs' true
      else if isDigitC c then parseNumber (c :: cs') false
      else none
  | f + 1, .atail, cs =>
    match skipWsL cs with
    | ']' :: r => some (Json.jarrNil, r)
    | ',' :: r =>
      match parseF f .val r with
      | none => none
      | some (v, r') =>
        match parseF f .atail r' with
        | none => none
        | some (tl, r'') => some (Json.jarrCons v tl, r'')
    | _ => none
  | f + 1, .otail, cs =>
    match skipWsL cs with
    | [] => none
    | d :: r =>
      if d = cbraceC then some (Json.jobjNil, r)
      else if d = ',' then
        match skipWsL r with
        | [] => none
        | e :: r1 =>
          if e = quoteC then
            match parseStrChars r1 with
            | none => none
            | some (k, r2) =>
              match skipWsL r2 with
              | ':' :: r3 =>
                match parseF f .val r3 with
                | none => none
                | some (v, r4) =>
                  match parseF f .otail r4 with
                  | none => none
                  | some (tl, r5) => some (Json.jobjCons ⟨k⟩ v tl, r5)
              | _ => none
          else none
      else none

/-- `json.loads`: parse one value, then require only whitespace to remain
(Python's "Extra data" check). -/
def parseJson (s : String) : Option Json :=
  match parseF (s.data.length + 1) .val s.data with
  | some (j, rest) => if skipWsL rest = [] then some j else none
  | none => none

/-! ## Python cell values and rows

A CSV-table cell / dict value as the handlers see it: `vnull` is Python
`None`, `vnan` is a float NaN (what pandas puts in empty cells of an
in-memory frame), `vjson` is an in-memory Python list or dict (before
serialization or after parsing).  A row is an ordered association list,
as a Python dict is; the rows the system writes have distinct keys. -/

inductive Val where
  | vnull
  | vnan
  | vstr (s : String)
  | vint (n : Int)
  | vfloat (q : Rat)
  | vjson (j : Json)
  deriving DecidableEq

abbrev Row := List (String × Val)

def getField (r : Row) (k : String) : Option Val := List.lookup k r

def hasField (r : Row) (k : String) : Bool := (getField r k).isSome

/-- Python dict assignment `record[key] = value`: replace in place if the
key is present, else append. -/
def setField : Row → String → Val → Row
  | [], k, v => [(k, v)]
  | (k', v') :: rest, k, v => if k' = k then (k, v) :: rest else (k', v') :: setField rest k v

/-- Apply a key-aware function to every value of a row (the handlers'
`for key, value in record.items(): record[key] = ...` loops). -/
def mapVals (f : String → Val → Val) (r : Row) : Row :=
  r.map (fun kv => (kv.1, f kv.1 kv.2))

/-- ASCII lowering, enough for the handlers' `str(value).lower() == 'nan'`
checks (only ASCII spellings of `nan` can compare equal). -/
def asciiLower (c : Char) : Char :=
  if 'A' ≤ c && c ≤ 'Z' then Char.ofNat (c.toNat + 32) else c

def lowerStr (s : String) : String := ⟨s.data.map asciiLower⟩

/-- Python `str()` of a cell value, as far as the handlers use it. -/
def pyStrV : Val → String
  | .vnull => "None"
  | .vnan => "nan"
  | .vstr s => s
  | .vint n => ⟨intChars n⟩
  | .vfloat q => ⟨floatChars q⟩
  | .vjson j => dumps j

/-- The handlers' missing-value test
`pd.isna(value) or value == 'nan' or str(value).lower() == 'nan'`. -/
def isNanLike : Val → Bool
  | .vnan => true
  | .vnull => true
  | .vstr s => lowerStr s = "nan"
  | _ => false

def trimWsL (cs : List Char) : List Char := (skipWsL ((skipWsL cs.reverse)).reverse)

/-- Python `float(str)`: optional surrounding whitespace and sign, then
`digits`, `digits.`, `digits.digits` or `.digits`, with an optional
exponent.  The `inf`/`nan` spellings and digit underscores, which Python
also accepts, are rejected here: they would produce non-finite floats
outside this rational model, and no value the system writes has them. -/
def pyFloatOfChars (cs : List Char) : Option Rat :=
  let cs1 := trimWsL cs
  let signed : Bool × List Char :=
    match cs1 with
    | '-' :: r => (true, r)
    | '+' :: r => (false, r)
    | r => (false, r)
  let body := signed.2
  let ipPair := readDigits body
  let fracPair : List Char × List Char :=
    match ipPair.2 with
    | '.' :: r => readDigits r
    | r => ([], r)
  let hadDot : Bool := match ipPair.2 with | '.' :: _ => true | _ => false
  if ipPair.1.isEmpty ∧ fracPair.1.isEmpty then none
  else
    let rest1 := if hadDot then fracPair.2 else ipPair.2
    let expPair : Option (Bool × List Char) × List Char :=
      match rest1 with
      | 'e' :: '+' :: d :: ds =>
          if isDigitC d then let p := readDigits (d :: ds); (some (false, p.1), p.2) else (none, rest1)
      | 'e' :: '-' :: d :: ds =>
          if isDigitC d then let p := readDigits (d :: ds); (some (true, p.1), p.2) else (none, rest1)
      | 'e' :: d :: ds =>
          if isDigitC d then let p := readDigits (d :: ds); (some (false, p.1), p.2) else (none, rest1)
      | 'E' :: '+' :: d :: ds =>
          if isDigitC d then let p := readDigits (d :: ds); (some (false, p.1), p.2) else (none, rest1)
      | 'E' :: '-' :: d :: ds =>
          if isDigitC d then let p := readDigits (d :: ds); (some (true, p.1), p.2) else (none, rest1)
      | 'E' :: d :: ds =>
          if isDigitC d then let p := readDigits (d :: ds); (some (false, p.1), p.2) else (none, rest1)
      | _ => (none, rest1)
    if ¬ expPair.2.isEmpty then none
    else
      let base : Rat :=
        (digitsVal ipPair.1 : Rat) + (digitsVal fracPair.1 : Rat) / ((10 : Rat) ^ fracPair.1.length)
      let scaled : Rat :=
        match expPair.1 with
        | none => base
        | some (false, ds) => base * (10 : Rat) ^ digitsVal ds
        | some (true, ds) => base / (10 : Rat) ^ digitsVal ds
      some (if signed.1 then -scaled else scaled)

/-- Python `int(str)`: optional surrounding whitespace and sign, then a
nonempty digit run and nothing else. -/
def pyIntOfChars (cs : List Char) : Option Int :=
  let cs1 := trimWsL cs
  let signed : Bool × List Char :=
    match cs1 with
    | '-' :: r => (true, r)
    | '+' :: r => (false, r)
    | r => (false, r)
  let p := readDigits signed.2
  if p.1.isEmpty ∨ ¬ p.2.isEmpty then none
  else some (if signed.1 then -(digitsVal p.1 : Int) else (digitsVal p.1 : Int))

/-- Python `int()` truncates floats toward zero. -/
def pyTrunc (q : Rat) : Int := q.num.tdiv (q.den : Int)

/-- Python `float(value)`; `none` models the `TypeError`/`ValueError`
raised on `None`, lists/dicts and unparseable strings. -/
def pyFloatV : Val → Option Rat
  | .vint n => some (n : Rat)
  | .vfloat q => some q
  | .vstr s => pyFloatOfChars s.data
  | _ => none

/-- Python `int(value)`; `none` models the raised error. -/
def pyIntV : Val → Option Int
  | .vint n => some n
  | .vfloat q => some (pyTrunc q)
  | .vstr s => pyIntOfChars s.data
  | _ => none

/-! ## The generic record store (`CSVHandler`)

Tables are ordered lists of rows.  The backing CSV file is identified
with the table each mutating call persists.  `find_by_id` is the
`df[df['id'] == record_id]` first-match lookup; pandas compares each cell
of the `id` column with the given Python string, so only a string cell
with that exact value matches. -/

namespace CSVHandler

def idMatches (r : Row) (rid : String) : Bool :=
  getField r ("id") == some (Val.vstr rid)

def find_by_id (table : List Row) (rid : String) : Option Row :=
  table.find? (fun r => idMatches r rid)

/-- `create`: assign a fresh id if the dict has none, append, persist.
Returns the dict itself (as the Python code does) and the new table. -/
def create (table : List Row) (newId : String) (data : Row) : Row × List Row :=
  let d := if hasField data ("id") then data else data ++ [("id", Val.vstr newId)]
  (d, table ++ [d])

/-- `df.loc[mask, k] = v` where `mask` selects the rows whose id matches:
sets the cell on matching rows; if `k` is a new column, pandas enlarges
the whole frame, the unmatched rows receiving NaN in that column. -/
def dfSetCol (table : List Row) (rid : String) (k : String) (v : Val) : List Row :=
  table.map (fun r =>
    if idMatches r rid then setField r k v
    else if hasField r k then r else r ++ [(k, Val.vnan)])

/-- `update`: nothing on an empty table or an unmatched id; otherwise
overwrite each non-`id` payload field on the matching rows, persist, and
return the first matching row of the mutated frame. -/
def update (table : List Row) (rid : String) (data : Row) : Option Row × List Row :=
  if table.isEmpty then (none, table)
  else if ¬ table.any (fun r => idMatches r rid) then (none, table)
  else
    let table' := data.foldl
      (fun t kv => if kv.1 = "id" then t else dfSetCol t rid kv.1 kv.2) table
    (table'.find? (fun r => idMatches r rid), table')

/-- `delete`: remove every row matching the id; report whether any was
removed; persist only when one was. -/
def delete (table : List Row) (rid : String) : Bool × List Row :=
  if table.isEmpty then (false, table)
  else
    let remaining := table.filter (fun r => ¬ idMatches r rid)
    if remaining.length = table.length then (false, table)
    else (true, remaining)

end CSVHandler

/-- The lenient structured-field decode shared by the three codecs:
JSON text is parsed (`json.loads`), any parse failure degrading to the
empty structure; a `None` or absent field also becomes the empty
structure; a non-string value is left alone. -/
def jsonDecodeField (r : Row) (k : String) (dflt : Json) : Row :=
  match getField r k with
  | some (Val.vstr s) => setField r k (Val.vjson ((parseJson s).getD dflt))
  | some Val.vnull => setField r k (Val.vjson dflt)
  | some _ => r
  | none => r ++ [(k, Val.vjson dflt)]

/-! ## Product handler -/

namespace ProductCSVHandler

/-- Replacement for a NaN-like cell in `_process_product_record`. -/
def nanRepl (k : String) : Val :=
  if k = "description" ∨ k = "image" then Val.vstr ""
  else if k = "price" ∨ k = "cost" then Val.vfloat 0
  else if k = "stock" then Val.vint 0
  else Val.vnull

/-- `record[k] = float(record[k])` guarded by presence and non-`None`,
with the `except` fallback to `0.0`. -/
def coerceFloatField (r : Row) (k : String) : Row :=
  match getField r k with
  | none => r
  | some Val.vnull => r
  | some v => setField r k (Val.vfloat ((pyFloatV v).getD 0))

/-- `record[k] = int(record[k])` guarded by presence and non-`None`, with
the `except` fallback to `0`. -/
def coerceIntField (r : Row) (k : String) : Row :=
  match getField r k with
  | none => r
  | some Val.vnull => r
  | some v => setField r k (Val.vint ((pyIntV v).getD 0))

/-- `record[k] = str(record[k])` when the key is present. -/
def strifyField (r : Row) (k : String) : Row :=
  match getField r k with
  | none => r
  | some v => setField r k (Val.vstr (pyStrV v))

/-- `_process_product_record`: NaN replacement per field class, id
stringified, `price`/`cost` to float, `stock` to int, and the `variants`
cell decoded from JSON text with the lenient empty-list fallback. -/
def process_product_record (r : Row) : Row :=
  let r1 := mapVals (fun k v => if isNanLike v then nanRepl k else v) r
  let r2 := strifyField r1 ("id")
  let r3 := coerceFloatField r2 ("price")
  let r4 := coerceFloatField r3 ("cost")
  let r5 := coerceIntField r4 ("stock")
  jsonDecodeField r5 ("variants") Json.jarrNil

/-- The `variants` pre-serialization of `ProductCSVHandler.create`/
`update`: a list is dumped to JSON text, a string is kept only if it
parses as JSON (else reset to `"[]"`), and any other value becomes
`"[]"`. -/
def serializeVariants (data : Row) : Row :=
  match getField data ("variants") with
  | some (Val.vjson Json.jarrNil) =>
      setField data ("variants") (Val.vstr (dumps Json.jarrNil))
  | some (Val.vjson (Json.jarrCons h t)) =>
      setField data ("variants") (Val.vstr (dumps (Json.jarrCons h t)))
  | some (Val.vstr s) =>
      if (parseJson s).isSome then data else setField data ("variants") (Val.vstr "[]")
  | some _ => setField data ("variants") (Val.vstr "[]")
  | none => data

def create (table : List Row) (newId : String) (data : Row) : Row × List Row :=
  let d := serializeVariants data
  let pr := CSVHandler.create table newId d
  (process_product_record pr.1, pr.2)

def update (table : List Row) (rid : String) (data : Row) : Option Row × List Row :=
  let d := serializeVariants data
  let pr := CSVHandler.update table rid d
  (pr.1.map process_product_record, pr.2)

def find_by_id (table : List Row) (rid : String) : Option Row :=
  (CSVHandler.find_by_id table rid).map process_product_record

def find_by_sku (table : List Row) (sku : String) : Option Row :=
  (table.find? (fun r => getField r ("sku") == some (Val.vstr sku))).map process_product_record

end ProductCSVHandler

/-! ## Customer handler -/

namespace CustomerCSVHandler

/-- Replacement for a NaN-like or empty cell in
`_process_customer_record`. -/
def nanRepl (k : String) : Val :=
  if k = "loyalty_points" ∨ k = "visits" then Val.vint 0
  else if k = "total_spent" then Val.vfloat 0
  else Val.vnull

/-- Customer numeric coercion: `int(x) if x is not None else 0`, with the
`except` fallback to `0`. -/
def coerceIntFieldOrZero (r : Row) (k : String) : Row :=
  match getField r k with
  | none => r
  | some Val.vnull => setField r k (Val.vint 0)
  | some v => setField r k (Val.vint ((pyIntV v).getD 0))

def coerceFloatFieldOrZero (r : Row) (k : String) : Row :=
  match getField r k with
  | none => r
  | some Val.vnull => setField r k (Val.vfloat 0)
  | some v => setField r k (Val.vfloat ((pyFloatV v).getD 0))

/-- `_process_customer_record`: like the product codec but the
missing-value test also catches empty strings, and the numeric coercions
map `None` to zero; `preferences` decodes with an empty-dict fallback. -/
def process_customer_record (r : Row) : Row :=
  let r1 := mapVals (fun k v => if isNanLike v || v == Val.vstr "" then nanRepl k else v) r
  let r2 := ProductCSVHandler.strifyField r1 ("id")
  let r3 := coerceIntFieldOrZero r2 ("loyalty_points")
  let r4 := coerceFloatFieldOrZero r3 ("total_spent")
  let r5 := coerceIntFieldOrZero r4 ("visits")
  jsonDecodeField r5 ("preferences") Json.jobjNil

/-- `preferences` pre-serialization: only an in-memory dict is dumped. -/
def serializePreferences (data : Row) : Row :=
  match getField data ("preferences") with
  | some (Val.vjson Json.jobjNil) =>
      setField data ("preferences") (Val.vstr (dumps Json.jobjNil))
  | some (Val.vjson (Json.jobjCons k v t)) =>
      setField data ("preferences") (Val.vstr (dumps (Json.jobjCons k v t)))
  | _ => data

def update (table : List Row) (rid : String) (data : Row) : Option Row × List Row :=
  let d := serializePreferences data
  let pr := CSVHandler.update table rid d
  (pr.1.map process_customer_record, pr.2)

def find_by_id (table : List Row) (rid : String) : Option Row :=
  (CSVHandler.find_by_id table rid).map process_customer_record

end CustomerCSVHandler

/-! ## Sales handler -/

/-- An error escaping a handler as a plain Python exception (surfaced by
the endpoint's generic `except Exception` as an internal failure). -/
inductive PyErr where
  | floatCoercion
  deriving DecidableEq

namespace SalesCSVHandler

/-- Replacement for a NaN-like cell in `_process_sale_record`. -/
def nanRepl (k : String) : Val :=
  if k = "paid_amount" ∨ k = "remaining_amount" then Val.vfloat 0
  else Val.vnull

/-- `_process_sale_record`: NaN replacement, `id`/`cashier_id`
stringified, the four money fields to float, and the `items` cell decoded
from JSON text with the lenient empty-list fallback. -/
def process_sale_record (r : Row) : Row :=
  let r1 := mapVals (fun k v => if isNanLike v then nanRepl k else v) r
  let r2 := ProductCSVHandler.strifyField r1 ("id")
  let r3 := ProductCSVHandler.strifyField r2 ("cashier_id")
  let r4 := ProductCSVHandler.coerceFloatField r3 ("subtotal")
  let r5 := ProductCSVHandler.coerceFloatField r4 ("total")
  let r6 := ProductCSVHandler.coerceFloatField r5 ("paid_amount")
  let r7 := ProductCSVHandler.coerceFloatField r6 ("remaining_amount")
  jsonDecodeField r7 ("items") Json.jarrNil

/-- `items` pre-serialization: only an in-memory list is dumped. -/
def serializeItems (data : Row) : Row :=
  match getField data ("items") with
  | some (Val.vjson Json.jarrNil) =>
      setField data ("items") (Val.vstr (dumps Json.jarrNil))
  | some (Val.vjson (Json.jarrCons h t)) =>
      setField data ("items") (Val.vstr (dumps (Json.jarrCons h t)))
  | _ => data

/-- `SalesCSVHandler.create`: serialize `items`, default the timestamp
only when the key is absent, then the partial-payment logic.  When both
the `paid_amount` and `total` keys are present, `float()` is applied to
their values with no exception handling, so a `None` there escapes as a
`TypeError` (modelled by `PyErr.floatCoercion`) before anything is
persisted to the sales table. -/
def create (table : List Row) (newId now : String) (data : Row) :
    Except PyErr (Row × List Row) :=
  let d1 := serializeItems data
  let d2 := if hasField d1 ("timestamp") then d1 else d1 ++ [("timestamp", Val.vstr now)]
  if hasField d2 ("paid_amount") && hasField d2 ("total") then
    match pyFloatV ((getField d2 ("paid_amount")).getD (Val.vint 0)),
          pyFloatV ((getField d2 ("total")).getD (Val.vint 0)) with
    | some p, some t =>
      let d3 :=
        if p ≥ t then
          setField (setField (setField d2 ("status") (Val.vstr "completed"))
            ("remaining_amount") (Val.vint 0)) ("paid_amount") (Val.vfloat t)
        else
          setField (setField d2 ("status") (Val.vstr "partial_payment"))
            ("remaining_amount") (Val.vfloat (t - p))
      let pr := CSVHandler.create table newId d3
      .ok (process_sale_record pr.1, pr.2)
    | _, _ => .error .floatCoercion
  else
    let pr := CSVHandler.create table newId d2
    .ok (process_sale_record pr.1, pr.2)

/-- `get_all`: every row, codec-processed. -/
def get_all (table : List Row) : List Row := table.map process_sale_record

end SalesCSVHandler

/-! ## Request models (the validated pydantic payloads)

Field order in each `toRow` function matches the pydantic declaration
order, which is the `dict()` key order the handlers receive. -/

structure ProductVariant where
  id : String
  size : String
  color : String
  stock : Int
  sku : String
  deriving DecidableEq

def variantToJson (v : ProductVariant) : Json :=
  jobjOfFields [("id", Json.jstr v.id), ("size", Json.jstr v.size),
    ("color", Json.jstr v.color), ("stock", Json.jint v.stock), ("sku", Json.jstr v.sku)]

structure ProductCreate where
  name : String
  category : String
  price : Rat
  cost : Rat
  stock : Int
  sku : String
  description : Option String
  image : Option String
  variants : List ProductVariant
  deriving DecidableEq

def optStrVal : Option String → Val
  | none => Val.vnull
  | some s => Val.vstr s

def optRatVal : Option Rat → Val
  | none => Val.vnull
  | some q => Val.vfloat q

def optStrJson : Option String → Json
  | none => Json.jnull
  | some s => Json.jstr s

/-- `product.dict()`. -/
def productToRow (p : ProductCreate) : Row :=
  [("name", Val.vstr p.name), ("category", Val.vstr p.category),
   ("price", Val.vfloat p.price), ("cost", Val.vfloat p.cost),
   ("stock", Val.vint p.stock), ("sku", Val.vstr p.sku),
   ("description", optStrVal p.description), ("image", optStrVal p.image),
   ("variants", Val.vjson (jarrOfList (p.variants.map variantToJson)))]

structure SaleItem where
  product_id : String
  variant_id : Option String
  quantity : Int
  price : Rat
  product_name : Option String
  deriving DecidableEq

def itemToJson (it : SaleItem) : Json :=
  jobjOfFields [("product_id", Json.jstr it.product_id),
    ("variant_id", optStrJson it.variant_id), ("quantity", Json.jint it.quantity),
    ("price", Json.jnum it.price), ("product_name", optStrJson it.product_name)]

structure SaleCreate where
  customer_id : Option String
  items : List SaleItem
  subtotal : Rat
  total : Rat
  payment_method : String
  cashier_id : String
  timestamp : Option String
  status : String
  paid_amount : Option Rat
  remaining_amount : Option Rat
  deriving DecidableEq

/-- `sale.dict()`: every declared field is a key, optional fields that
were omitted appearing with value `None`. -/
def saleToRow (s : SaleCreate) : Row :=
  [("customer_id", optStrVal s.customer_id),
   ("items", Val.vjson (jarrOfList (s.items.map itemToJson))),
   ("subtotal", Val.vfloat s.subtotal), ("total", Val.vfloat s.total),
   ("payment_method", Val.vstr s.payment_method), ("cashier_id", Val.vstr s.cashier_id),
   ("timestamp", optStrVal s.timestamp), ("status", Val.vstr s.status),
   ("paid_amount", optRatVal s.paid_amount), ("remaining_amount", optRatVal s.remaining_amount)]

/-! ## API endpoints -/

/-- Failure of `create_product` reported at the boundary (HTTP 400). -/
inductive ApiErr where
  | conflictSku
  deriving DecidableEq

/-- Failure of `create_sale`: the two validation failures are reported
with HTTP 400; an escaped Python exception surfaces as a generic
internal failure (HTTP 500). -/
inductive SaleErr where
  | productNotFound (pid : String)
  | insufficientStock (pid : String)
  | internal (e : PyErr)
  deriving DecidableEq

/-- `POST /products`: reject a duplicate SKU before creating. -/
def create_product (table : List Row) (newId : String) (p : ProductCreate) :
    Except ApiErr Row × List Row :=
  match ProductCSVHandler.find_by_sku table p.sku with
  | some _ => (.error .conflictSku, table)
  | none =>
    let pr := ProductCSVHandler.create table newId (productToRow p)
    (.ok pr.1, pr.2)

/-- `record.get(k, d)` for an int-typed field of a processed record. -/
def pyGetInt (r : Row) (k : String) (d : Int) : Int :=
  match getField r k with
  | some (Val.vint n) => n
  | _ => d

/-- `record.get(k, d)` for a float-typed field of a processed record. -/
def pyGetFloat (r : Row) (k : String) (d : Rat) : Rat :=
  match getField r k with
  | some (Val.vfloat q) => q
  | some (Val.vint n) => (n : Rat)
  | _ => d

/-- The per-item loop of `create_sale` (sales.py lines 84–105): look the
product up, fail 400 on a missing product or on
`current_stock < item.quantity`, otherwise persist the decremented stock
immediately and continue.  The returned table is whatever had been
persisted when the loop stopped. -/
def process_sale_items : List Row → List SaleItem → List Row × Option SaleErr
  | prods, [] => (prods, none)
  | prods, item :: rest =>
    match ProductCSVHandler.find_by_id prods item.product_id with
    | none => (prods, some (.productNotFound item.product_id))
    | some product =>
      let current_stock := pyGetInt product ("stock") 0
      if current_stock < item.quantity then
        (prods, some (.insufficientStock item.product_id))
      else
        process_sale_items
          ((ProductCSVHandler.update prods item.product_id
            [("stock", Val.vint (current_stock - item.quantity))]).2) rest

/-- The customer step of `create_sale` (sales.py lines 108–121): when the
request names a customer (a non-empty id — Python truthiness) and that
customer exists, push all four derived stats in one `update` call;
otherwise leave the table untouched. -/
def update_customer_stats (customers : List Row) (s : SaleCreate) (now : String) : List Row :=
  match s.customer_id with
  | none => customers
  | some cid =>
    if cid = "" then customers
    else
      match CustomerCSVHandler.find_by_id customers cid with
      | none => customers
      | some customer =>
        let new_total_spent := pyGetFloat customer ("total_spent") 0 + s.total
        let new_visits := pyGetInt customer ("visits") 0 + 1
        let new_loyalty := pyGetInt customer ("loyalty_points") 0 + pyTrunc s.total
        (CustomerCSVHandler.update customers cid
          [("total_spent", Val.vfloat new_total_spent), ("visits", Val.vint new_visits),
           ("loyalty_points", Val.vint new_loyalty), ("last_visit", Val.vstr now)]).2

/-- The persisted state: one table per entity the sale flow touches. -/
structure St where
  products : List Row
  customers : List Row
  sales : List Row
  deriving DecidableEq

/-- `POST /sales` (`create_sale`): run the item loop, then the customer
step, then hand `sale.dict()` to the sales handler.  Each step persists
its own mutations immediately, so the state returned alongside an error
keeps every mutation made before the failure. -/
def create_sale (st : St) (s : SaleCreate) (newId now : String) :
    Except SaleErr Row × St :=
  match process_sale_items st.products s.items with
  | (prods, some e) => (.error e, { st with products := prods })
  | (prods, none) =>
    let custs := update_customer_stats st.customers s now
    match SalesCSVHandler.create st.sales newId now (saleToRow s) with
    | .error pe =>
        (.error (.internal pe), { products := prods, customers := custs, sales := st.sales })
    | .ok (rec, sales') =>
        (.ok rec, { products := prods, customers := custs, sales := sales' })

/-! ## Analytics (`GET /sales/analytics/dashboard`)

The model covers the outputs the specification's claims name: window
filtering, total revenue, transaction count, average order value and the
per-day revenue trend.  (Top products and the payment-method mix are
further outputs of the same single pass and are not modelled.)  The
cutoff is the ISO timestamp `(now - days)` the endpoint computes; ISO
timestamps compare lexicographically, as the Python string comparison
does. -/

/-- Lexicographic string order by code point, as Python compares str. -/
def strLeChars : List Char → List Char → Bool
  | [], _ => true
  | _ :: _, [] => false
  | a :: as, b :: bs => if a < b then true else if a = b then strLeChars as bs else false

/-- `a >= b` on Python strings. -/
def pyStrGe (a b : String) : Bool := strLeChars b.data a.data

/-- `s.get('timestamp', '')` on a processed sale record. -/
def tsOf (s : Row) : String :=
  match getField s ("timestamp") with
  | some (Val.vstr t) => t
  | _ => ""

/-- `s.get('total', 0)` on a processed sale record. -/
def totalOf (s : Row) : Rat :=
  match getField s ("total") with
  | some (Val.vfloat q) => q
  | some (Val.vint n) => (n : Rat)
  | _ => 0

/-- `sale.get('timestamp', '')[:10]`: the `YYYY-MM-DD` day prefix. -/
def dayOf (ts : String) : String := ⟨ts.data.take 10⟩

/-- `daily_sales[date] += total` on a `defaultdict(float)`, preserving
first-insertion order as a Python dict does. -/
def addDaily : List (String × Rat) → String → Rat → List (String × Rat)
  | [], d, r => [(d, r)]
  | (d', r') :: acc, d, r =>
    if d' = d then (d', r' + r) :: acc else (d', r') :: addDaily acc d r

/-- Python `sorted` on `(day, revenue)` pairs: lexicographic, the day
deciding unless equal. -/
def pairLeB (a b : String × Rat) : Bool :=
  if a.1 = b.1 then a.2 ≤ b.2 else strLeChars a.1.data b.1.data

/-- Python's `sorted` is a stable sort, and a stable sort's output is
determined by the order relation and the input; insertion sort realizes
the same specification and is kernel-evaluable. -/
def pySorted (l : List (String × Rat)) : List (String × Rat) :=
  List.insertionSort (fun a b => pairLeB a b = true) l

structure SalesAnalytics where
  total_sales : Rat
  total_transactions : Nat
  average_order_value : Rat
  revenue_trend : List (String × Rat)
  deriving DecidableEq

def get_sales_analytics (salesTable : List Row) (cutoff : String) : SalesAnalytics :=
  let all_sales := SalesCSVHandler.get_all salesTable
  let recent_sales := all_sales.filter (fun s => pyStrGe (tsOf s) cutoff)
  let total_sales := (recent_sales.map totalOf).sum
  let total_transactions := recent_sales.length
  let average_order_value :=
    if 0 < total_transactions then total_sales / (total_transactions : Rat) else 0
  let daily_sales := recent_sales.foldl
    (fun acc s => addDaily acc (dayOf (tsOf s)) (totalOf s)) []
  { total_sales := total_sales, total_transactions := total_transactions,
    average_order_value := average_order_value, revenue_trend := pySorted daily_sales }

/-- The per-row effect of one `update` call: every payload field except
`id` overwritten in payload order.  `CSVHandler.update` acts on the whole
frame; `update_snd_eq_map` below shows it is this function mapped over
the table. -/
def rowUpdF (rid : String) (data : Row) (r : Row) : Row :=
  data.foldl
    (fun r' kv =>
      if kv.1 = "id" then r'
      else if CSVHandler.idMatches r' rid then setField r' kv.1 kv.2
      else if hasField r' kv.1 then r' else r' ++ [(kv.1, Val.vnan)]) r

deriving instance DecidableEq for Except

/-! ## JSON printer-parser round trip

The lemmas of this section show that `parseJson` inverts `dumps` on the
values the variants codec serializes: arrays of flat objects with string
and int leaves.  The string layer handles every escape `json.dumps`
emits, including `\uXXXX` escapes and surrogate pairs for astral
characters. -/

theorem skipWsL_cons_of_not_ws (c : Char) (cs : List Char) (h : isWsC c = false) :
    skipWsL (c :: cs) = c :: cs := by
  simp [skipWsL, h]

theorem skipWsL_space (cs : List Char) : skipWsL (' ' :: cs) = skipWsL cs := by
  simp [skipWsL, isWsC]

theorem hexVal_hexDigitLower : ∀ m, m < 16 → hexVal (hexDigitLower m) = some m := by decide

theorem char_valid_range (c : Char) :
    c.toNat < 55296 ∨ (57343 < c.toNat ∧ c.toNat < 1114112) := by
  have h := c.valid
  rcases h with h | ⟨h1, h2⟩
  · left; exact h
  · right; exact ⟨h1, h2⟩



theorem pscan_uesc_bmp (n : Nat) (k s2 rest : List Char)
    (hn1 : n < 55296 ∨ (57343 < n ∧ n < 65536))
    (hk : pscan none k = some (s2, rest)) :
    pscan none (uEscape n ++ k) = some (Char.ofNat n :: s2, rest) := by
  have e1 : hexVal (hexDigitLower (n / 4096 % 16)) = some (n / 4096 % 16) :=
    hexVal_hexDigitLower _ (Nat.mod_lt _ (by norm_num))
  have e2 : hexVal (hexDigitLower (n / 256 % 16)) = some (n / 256 % 16) :=
    hexVal_hexDigitLower _ (Nat.mod_lt _ (by norm_num))
  have e3 : hexVal (hexDigitLower (n / 16 % 16)) = some (n / 16 % 16) :=
    hexVal_hexDigitLower _ (Nat.mod_lt _ (by norm_num))
  have e4 : hexVal (hexDigitLower (n % 16)) = some (n % 16) :=
    hexVal_hexDigitLower _ (Nat.mod_lt _ (by norm_num))
  have hm : 4096 * (n / 4096 % 16) + 256 * (n / 256 % 16) +
      16 * (n / 16 % 16) + n % 16 = n := by omega
  rw [uEscape, List.cons_append, List.cons_append, List.cons_append, List.cons_append,
    List.cons_append, List.cons_append, List.nil_append, pscan.eq_def]
  simp only []
  rw [if_true, if_true, e1, e2, e3, e4]
  simp only []
  rw [hm]
  rw [if_neg (show ¬(55296 ≤ n ∧ n ≤ 56319) from by omega),
    if_neg (show ¬(56320 ≤ n ∧ n ≤ 57343) from by omega), hk]
  rfl

theorem pscan_uesc_hi (m : Nat) (k : List Char)
    (hm1 : 55296 ≤ m) (hm2 : m ≤ 56319) :
    pscan none (uEscape m ++ k) = pscan (some m) k := by
  have e1 : hexVal (hexDigitLower (m / 4096 % 16)) = some (m / 4096 % 16) :=
    hexVal_hexDigitLower _ (Nat.mod_lt _ (by norm_num))
  have e2 : hexVal (hexDigitLower (m / 256 % 16)) = some (m / 256 % 16) :=
    hexVal_hexDigitLower _ (Nat.mod_lt _ (by norm_num))
  have e3 : hexVal (hexDigitLower (m / 16 % 16)) = some (m / 16 % 16) :=
    hexVal_hexDigitLower _ (Nat.mod_lt _ (by norm_num))
  have e4 : hexVal (hexDigitLower (m % 16)) = some (m % 16) :=
    hexVal_hexDigitLower _ (Nat.mod_lt _ (by norm_num))
  have hmm : 4096 * (m / 4096 % 16) + 256 * (m / 256 % 16) +
      16 * (m / 16 % 16) + m % 16 = m := by omega
  rw [uEscape, List.cons_append, List.cons_append, List.cons_append, List.cons_append,
    List.cons_append, List.cons_append, List.nil_append, pscan.eq_def]
  simp only []
  rw [if_true, if_true, e1, e2, e3, e4]
  simp only []
  rw [hmm]
  rw [if_pos (show 55296 ≤ m ∧ m ≤ 56319 from ⟨hm1, hm2⟩),
    if_neg (show ¬(backslashC = quoteC) from by decide)]

theorem pscan_uesc_pair (hi lo : Nat) (k s2 rest : List Char)
    (hlo1 : 56320 ≤ lo) (hlo2 : lo ≤ 57343)
    (hk : pscan none k = some (s2, rest)) :
    pscan (some hi) (uEscape lo ++ k) =
      some (Char.ofNat (65536 + (hi - 55296) * 1024 + (lo - 56320)) :: s2, rest) := by
  have e1 : hexVal (hexDigitLower (lo / 4096 % 16)) = some (lo / 4096 % 16) :=
    hexVal_hexDigitLower _ (Nat.mod_lt _ (by norm_num))
  have e2 : hexVal (hexDigitLower (lo / 256 % 16)) = some (lo / 256 % 16) :=
    hexVal_hexDigitLower _ (Nat.mod_lt _ (by norm_num))
  have e3 : hexVal (hexDigitLower (lo / 16 % 16)) = some (lo / 16 % 16) :=
    hexVal_hexDigitLower _ (Nat.mod_lt _ (by norm_num))
  have e4 : hexVal (hexDigitLower (lo % 16)) = some (lo % 16) :=
    hexVal_hexDigitLower _ (Nat.mod_lt _ (by norm_num))
  have hmm : 4096 * (lo / 4096 % 16) + 256 * (lo / 256 % 16) +
      16 * (lo / 16 % 16) + lo % 16 = lo := by omega
  rw [uEscape, List.cons_append, List.cons_append, List.cons_append, List.cons_append,
    List.cons_append, List.cons_append, List.nil_append, pscan.eq_def]
  simp only []
  rw [if_true, if_true, e1, e2, e3, e4]
  simp only []
  rw [hmm]
  rw [if_pos (show 56320 ≤ lo ∧ lo ≤ 57343 from ⟨hlo1, hlo2⟩), hk]
  rfl

/-- One escaped character consumes correctly: prepending the escape of `c`
to any scanner input extends the decoded string by `c`. -/
theorem pscan_escape_step (c : Char) (k s2 rest : List Char)
    (hk : pscan none k = some (s2, rest)) :
    pscan none (escapeChar c ++ k) = some (c :: s2, rest) := by
  by_cases h1 : c = quoteC
  · subst h1
    have he : escapeChar quoteC = [backslashC, quoteC] := by decide
    rw [he, List.cons_append, List.cons_append, List.nil_append, pscan.eq_def]
    simp +decide [hk, flushPend]
  by_cases h2 : c = backslashC
  · subst h2
    have he : escapeChar backslashC = [backslashC, backslashC] := by decide
    rw [he, List.cons_append, List.cons_append, List.nil_append, pscan.eq_def]
    simp +decide [hk, flushPend]
  by_cases h8 : c.toNat = 8
  · have hc : c = Char.ofNat 8 := by rw [← Char.ofNat_toNat c, h8]
    subst hc
    have he : escapeChar (Char.ofNat 8) = [backslashC, 'b'] := by decide
    rw [he, List.cons_append, List.cons_append, List.nil_append, pscan.eq_def]
    simp +decide [hk, flushPend]
  by_cases h9 : c.toNat = 9
  · have hc : c = Char.ofNat 9 := by rw [← Char.ofNat_toNat c, h9]
    subst hc
    have he : escapeChar (Char.ofNat 9) = [backslashC, 't'] := by decide
    rw [he, List.cons_append, List.cons_append, List.nil_append, pscan.eq_def]
    simp +decide [hk, flushPend]
  by_cases h10 : c.toNat = 10
  · have hc : c = Char.ofNat 10 := by rw [← Char.ofNat_toNat c, h10]
    subst hc
    have he : escapeChar (Char.ofNat 10) = [backslashC, 'n'] := by decide
    rw [he, List.cons_append, List.cons_append, List.nil_append, pscan.eq_def]
    simp +decide [hk, flushPend]
  by_cases h12 : c.toNat = 12
  · have hc : c = Char.ofNat 12 := by rw [← Char.ofNat_toNat c, h12]
    subst hc
    have he : escapeChar (Char.ofNat 12) = [backslashC, 'f'] := by decide
    rw [he, List.cons_append, List.cons_append, List.nil_append, pscan.eq_def]
    simp +decide [hk, flushPend]
  by_cases h13 : c.toNat = 13
  · have hc : c = Char.ofNat 13 := by rw [← Char.ofNat_toNat c, h13]
    subst hc
    have he : escapeChar (Char.ofNat 13) = [backslashC, 'r'] := by decide
    rw [he, List.cons_append, List.cons_append, List.nil_append, pscan.eq_def]
    simp +decide [hk, flushPend]
  by_cases hout : c.toNat < 32 ∨ 126 < c.toNat
  · by_cases hbmp : c.toNat < 65536
    · have he : escapeChar c = uEscape c.toNat := by
        simp only [escapeChar]
        rw [if_neg h1, if_neg h2, if_neg h8, if_neg h9, if_neg h10, if_neg h12, if_neg h13,
          if_pos (by simpa using hout), if_pos hbmp]
      have hvr := char_valid_range c
      rw [he, pscan_uesc_bmp c.toNat k s2 rest (by omega) hk, Char.ofNat_toNat]
    · have he : escapeChar c =
          uEscape (55296 + (c.toNat - 65536) / 1024) ++
            uEscape (56320 + (c.toNat - 65536) % 1024) := by
        simp only [escapeChar]
        rw [if_neg h1, if_neg h2, if_neg h8, if_neg h9, if_neg h10, if_neg h12, if_neg h13,
          if_pos (by simpa using hout), if_neg hbmp]
      have hvr := char_valid_range c
      have hge : 65536 ≤ c.toNat := by omega
      have hlt : c.toNat < 1114112 := by omega
      have hhiR2 : 55296 + (c.toNat - 65536) / 1024 ≤ 56319 := by
        have : (c.toNat - 65536) / 1024 ≤ 1023 := by omega
        omega
      have hloR2 : 56320 + (c.toNat - 65536) % 1024 ≤ 57343 := by
        have : (c.toNat - 65536) % 1024 ≤ 1023 :=
          Nat.le_of_lt_succ (Nat.mod_lt _ (by norm_num))
        omega
      rw [he, List.append_assoc,
        pscan_uesc_hi _ _ (by omega) hhiR2,
        pscan_uesc_pair _ _ _ _ _ (by omega) hloR2 hk]
      have hcv : 65536 + (55296 + (c.toNat - 65536) / 1024 - 55296) * 1024 +
          (56320 + (c.toNat - 65536) % 1024 - 56320) = c.toNat := by
        have hdm := Nat.div_add_mod (c.toNat - 65536) 1024
        omega
      rw [hcv, Char.ofNat_toNat]
  · have he : escapeChar c = [c] := by
      simp only [escapeChar]
      rw [if_neg h1, if_neg h2, if_neg h8, if_neg h9, if_neg h10, if_neg h12, if_neg h13,
        if_neg (by simpa using hout)]
    rw [he, List.cons_append, List.nil_append, pscan.eq_def]
    simp only []
    rw [if_neg h1, if_neg h2, if_neg (show ¬(c.toNat < 32) from by omega), hk]
    rfl

theorem pscan_escList (s : List Char) (rest : List Char) :
    pscan none (escList s ++ quoteC :: rest) = some (s, rest) := by
  induction s with
  | nil =>
    rw [escList, List.nil_append, pscan.eq_def]
    simp only []
    rw [if_true]
    rfl
  | cons c s' ih =>
    rw [escList, List.append_assoc]
    exact pscan_escape_step c _ s' rest ih

theorem isDigitC_digitChar : ∀ m, m < 10 → isDigitC (digitChar m) = true := by decide

theorem digitChar_toNat : ∀ m, m < 10 → (digitChar m).toNat = 48 + m := by decide

theorem digitChar_ne_zero : ∀ m, m < 10 → 0 < m → ¬(digitChar m = '0') := by decide

theorem natDigitsAux_ne_nil : ∀ f n, n < f → natDigitsAux f n ≠ [] := by
  intro f
  induction f with
  | zero => intro n h; omega
  | succ f ih =>
    intro n h
    by_cases h10 : n < 10
    · simp [natDigitsAux, h10]
    · simp only [natDigitsAux, if_neg h10]
      intro hc
      rcases List.append_eq_nil.mp hc with ⟨h1, h2⟩
      cases h2

theorem natDigitsAux_digits : ∀ f n, n < f → ∀ c ∈ natDigitsAux f n, isDigitC c = true := by
  intro f
  induction f with
  | zero => intro n h; omega
  | succ f ih =>
    intro n h c hc
    by_cases h10 : n < 10
    · rw [natDigitsAux, if_pos h10] at hc
      rcases List.mem_singleton.mp hc with rfl
      exact isDigitC_digitChar n h10
    · rw [natDigitsAux, if_neg h10] at hc
      rcases List.mem_append.mp hc with hc1 | hc2
      · exact ih (n / 10) (by omega) c hc1
      · rcases List.mem_singleton.mp hc2 with rfl
        exact isDigitC_digitChar _ (Nat.mod_lt _ (by norm_num))

theorem digitsVal_append_one (ds : List Char) (d : Char) :
    digitsVal (ds ++ [d]) = 10 * digitsVal ds + (d.toNat - 48) := by
  simp [digitsVal, List.foldl_append]

theorem digitsVal_natDigitsAux : ∀ f n, n < f → digitsVal (natDigitsAux f n) = n := by
  intro f
  induction f with
  | zero => intro n h; omega
  | succ f ih =>
    intro n h
    by_cases h10 : n < 10
    · rw [natDigitsAux, if_pos h10]
      simp [digitsVal, digitChar_toNat n h10]
    · rw [natDigitsAux, if_neg h10, digitsVal_append_one,
        ih (n / 10) (by omega), digitChar_toNat _ (Nat.mod_lt _ (by norm_num))]
      omega

theorem natDigitsAux_head_ne_zero : ∀ f n, n < f → 0 < n →
    ∀ d ds, natDigitsAux f n = d :: ds → ¬(d = '0') := by
  intro f
  induction f with
  | zero => intro n h; omega
  | succ f ih =>
    intro n h hpos d ds heq
    by_cases h10 : n < 10
    · rw [natDigitsAux, if_pos h10] at heq
      rcases heq with ⟨rfl, rfl⟩
      exact digitChar_ne_zero n h10 hpos
    · rw [natDigitsAux, if_neg h10] at heq
      rcases hsh : natDigitsAux f (n / 10) with _ | ⟨d0, ds0⟩
      · exact absurd hsh (natDigitsAux_ne_nil f (n / 10) (by omega))
      · rw [hsh, List.cons_append] at heq
        rcases heq with ⟨rfl, rfl⟩
        exact ih (n / 10) (by omega) (by omega) d ds0 hsh

theorem natChars_ne_nil (n : Nat) : natChars n ≠ [] :=
  natDigitsAux_ne_nil (n + 1) n (Nat.lt_succ_self n)

theorem natChars_digits (n : Nat) : ∀ c ∈ natChars n, isDigitC c = true :=
  natDigitsAux_digits (n + 1) n (Nat.lt_succ_self n)

theorem digitsVal_natChars (n : Nat) : digitsVal (natChars n) = n :=
  digitsVal_natDigitsAux (n + 1) n (Nat.lt_succ_self n)

theorem natChars_head_ne_zero (n : Nat) (hpos : 0 < n) (d : Char) (ds : List Char)
    (heq : natChars n = d :: ds) : ¬(d = '0') :=
  natDigitsAux_head_ne_zero (n + 1) n (Nat.lt_succ_self n) hpos d ds heq

theorem readDigits_digits_comma (ds rest : List Char)
    (hds : ∀ c ∈ ds, isDigitC c = true) :
    readDigits (ds ++ ',' :: rest) = (ds, ',' :: rest) := by
  induction ds with
  | nil =>
    rw [List.nil_append, readDigits.eq_def]
    simp only []
    rw [if_neg (show ¬(isDigitC ',' = true) from by decide)]
  | cons c ds' ih =>
    rw [List.cons_append, readDigits.eq_def]
    simp only []
    rw [if_pos (hds c (List.mem_cons_self c ds'))]
    rw [ih (fun c2 hc2 => hds c2 (List.mem_cons_of_mem c hc2))]

theorem isDigitC_toNat (c : Char) (h : isDigitC c = true) :
    48 ≤ c.toNat ∧ c.toNat ≤ 57 := by
  simp [isDigitC] at h
  exact h

theorem ne_of_toNat_ne (c d : Char) (h : ¬(c.toNat = d.toNat)) : ¬(c = d) :=
  fun he => h (congrArg Char.toNat he)

theorem parseNumber_natChars_comma (n : Nat) (neg : Bool) (rest : List Char) :
    parseNumber (natChars n ++ ',' :: rest) neg =
      some (Json.jint (if neg then -(n : Int) else (n : Int)), ',' :: rest) := by
  rcases Nat.eq_zero_or_pos n with rfl | hpos
  · rw [show natChars 0 = ['0'] from rfl]
    simp +decide [parseNumber, digitsVal]
  · obtain ⟨d, ds, heq⟩ : ∃ d ds, natChars n = d :: ds := by
      rcases h : natChars n with _ | ⟨d, ds⟩
      · exact absurd h (natChars_ne_nil n)
      · exact ⟨d, ds, rfl⟩
    have hd : isDigitC d = true := natChars_digits n d (by rw [heq]; exact List.mem_cons_self d ds)
    have hd0 : ¬(d = '0') := natChars_head_ne_zero n hpos d ds heq
    have hread : readDigits ((d :: ds) ++ ',' :: rest) = (d :: ds, ',' :: rest) := by
      refine readDigits_digits_comma _ _ ?_
      rw [← heq]
      exact natChars_digits n
    have hval : digitsVal (d :: ds) = n := by rw [← heq]; exact digitsVal_natChars n
    rw [heq, List.cons_append, parseNumber.eq_def]
    simp only []
    rw [if_neg (not_not_intro hd), if_neg hd0]
    rw [List.cons_append] at hread
    rw [hread]
    simp +decide []
    rw [hval]

theorem parseF_int_comma (f : Nat) (i : Int) (rest : List Char) :
    parseF (f + 1) .val (intChars i ++ ',' :: rest) = some (Json.jint i, ',' :: rest) := by
  by_cases hneg : i < 0
  · rw [intChars, if_pos hneg, List.cons_append, parseF.eq_def]
    simp only []
    rw [skipWsL_cons_of_not_ws _ _ (by decide)]
    simp +decide only [if_false, if_true]
    obtain ⟨d, ds, heq⟩ : ∃ d ds, natChars i.natAbs = d :: ds := by
      rcases h : natChars i.natAbs with _ | ⟨d, ds⟩
      · exact absurd h (natChars_ne_nil _)
      · exact ⟨d, ds, rfl⟩
    have hd : isDigitC d = true :=
      natChars_digits _ d (by rw [heq]; exact List.mem_cons_self d ds)
    have hdn := isDigitC_toNat d hd
    have hne : ¬(d = 'I') := ne_of_toNat_ne d 'I' (by simp +decide; omega)
    rw [heq, List.cons_append]
    split
    · rename_i r hm
      exfalso
      apply hne
      injection hm with h1 h2
    · rw [← List.cons_append, ← heq, parseNumber_natChars_comma, if_pos rfl]
      have hv : -(i.natAbs : Int) = i := by omega
      rw [hv]
  · obtain ⟨d, ds, heq⟩ : ∃ d ds, natChars i.natAbs = d :: ds := by
      rcases h : natChars i.natAbs with _ | ⟨d, ds⟩
      · exact absurd h (natChars_ne_nil _)
      · exact ⟨d, ds, rfl⟩
    have hd : isDigitC d = true :=
      natChars_digits _ d (by rw [heq]; exact List.mem_cons_self d ds)
    have hdn := isDigitC_toNat d hd
    have hnws : isWsC d = false := by
      simp only [isWsC]
      simp only [Bool.or_eq_false_iff, decide_eq_false_iff_not]
      refine ⟨⟨⟨?_, ?_⟩, ?_⟩, ?_⟩ <;> (apply ne_of_toNat_ne; simp +decide; omega)
    rw [intChars, if_neg hneg, heq, List.cons_append, parseF.eq_def]
    simp only []
    rw [skipWsL_cons_of_not_ws _ _ hnws]
    simp only []
    rw [if_neg (ne_of_toNat_ne d quoteC (by simp +decide [quoteC]; omega)),
      if_neg (ne_of_toNat_ne d '[' (by simp +decide; omega)),
      if_neg (ne_of_toNat_ne d obraceC (by simp +decide [obraceC]; omega)),
      if_neg (ne_of_toNat_ne d 't' (by simp +decide; omega)),
      if_neg (ne_of_toNat_ne d 'f' (by simp +decide; omega)),
      if_neg (ne_of_toNat_ne d 'n' (by simp +decide; omega)),
      if_neg (ne_of_toNat_ne d 'N' (by simp +decide; omega)),
      if_neg (ne_of_toNat_ne d 'I' (by simp +decide; omega)),
      if_neg (ne_of_toNat_ne d '-' (by simp +decide; omega)),
      if_pos hd]
    rw [← List.cons_append, ← heq, parseNumber_natChars_comma]
    have hv : (if (false : Bool) then -(i.natAbs : Int) else (i.natAbs : Int)) = i := by
      simp
      omega
    rw [hv]

theorem parse_val_space (g : Nat) (X : List Char) :
    parseF (g + 1) .val (' ' :: X) = parseF (g + 1) .val X := by
  rw [parseF.eq_def]
  rw [parseF.eq_def]
  simp only [skipWsL_space]

theorem parse_str_val (f : Nat) (s : String) (rest : List Char) :
    parseF (f + 1) .val (dchars .val (Json.jstr s) ++ rest) = some (Json.jstr s, rest) := by
  have htext : dchars .val (Json.jstr s) ++ rest = quoteC :: (escList s.data ++ quoteC :: rest) := by
    simp [dchars]
  rw [htext, parseF.eq_def]
  simp only []
  rw [skipWsL_cons_of_not_ws _ _ (by decide)]
  simp +decide only [if_false, if_true]
  rw [parseStrChars, pscan_escList]
  rfl

theorem parse_otail_nil (f : Nat) (rest : List Char) :
    parseF (f + 1) .otail (dchars .otail Json.jobjNil ++ rest) = some (Json.jobjNil, rest) := by
  have htext : dchars .otail Json.jobjNil ++ rest = cbraceC :: rest := by simp [dchars]
  rw [htext, parseF.eq_def]
  simp only []
  rw [skipWsL_cons_of_not_ws _ _ (by decide)]
  simp +decide only [if_false, if_true]

theorem parse_atail_nil (f : Nat) (rest : List Char) :
    parseF (f + 1) .atail (dchars .atail Json.jarrNil ++ rest) = some (Json.jarrNil, rest) := by
  have htext : dchars .atail Json.jarrNil ++ rest = ']' :: rest := by simp [dchars]
  rw [htext, parseF.eq_def]
  simp only []
  rw [skipWsL_cons_of_not_ws _ _ (by decide)]
  rfl

theorem parse_otail_step (g : Nat) (k : String) (v tl : Json) (rest : List Char)
    (hv : parseF (g + 1) .val (dchars .val v ++ (dchars .otail tl ++ rest)) =
      some (v, dchars .otail tl ++ rest))
    (htl : parseF (g + 1) .otail (dchars .otail tl ++ rest) = some (tl, rest)) :
    parseF (g + 2) .otail (dchars .otail (Json.jobjCons k v tl) ++ rest) =
      some (Json.jobjCons k v tl, rest) := by
  have htext : dchars .otail (Json.jobjCons k v tl) ++ rest =
      ',' :: ' ' :: quoteC :: (escList k.data ++ quoteC :: ':' :: ' ' ::
        (dchars .val v ++ (dchars .otail tl ++ rest))) := by
    simp [dchars]
  rw [htext, parseF.eq_def]
  simp only []
  rw [skipWsL_cons_of_not_ws _ _ (by decide)]
  simp +decide only [if_false, if_true]
  rw [skipWsL_space, skipWsL_cons_of_not_ws _ _ (by decide)]
  simp +decide only [if_false, if_true]
  rw [parseStrChars, pscan_escList]
  simp only []
  rw [skipWsL_cons_of_not_ws _ _ (by decide)]
  simp only []
  rw [parse_val_space, hv]
  simp only []
  rw [htl]

theorem parse_obj_head (g : Nat) (k : String) (v tl : Json) (rest : List Char)
    (hv : parseF (g + 1) .val (dchars .val v ++ (dchars .otail tl ++ rest)) =
      some (v, dchars .otail tl ++ rest))
    (htl : parseF (g + 1) .otail (dchars .otail tl ++ rest) = some (tl, rest)) :
    parseF (g + 2) .val (dchars .val (Json.jobjCons k v tl) ++ rest) =
      some (Json.jobjCons k v tl, rest) := by
  have htext : dchars .val (Json.jobjCons k v tl) ++ rest =
      obraceC :: quoteC :: (escList k.data ++ quoteC :: ':' :: ' ' ::
        (dchars .val v ++ (dchars .otail tl ++ rest))) := by
    simp [dchars]
  rw [htext, parseF.eq_def]
  simp only []
  rw [skipWsL_cons_of_not_ws _ _ (by decide)]
  simp +decide only [if_false, if_true]
  rw [skipWsL_cons_of_not_ws _ _ (by decide)]
  simp +decide only [if_false, if_true]
  rw [parseStrChars, pscan_escList]
  simp only []
  rw [skipWsL_cons_of_not_ws _ _ (by decide)]
  simp only []
  rw [parse_val_space, hv]
  simp only []
  rw [htl]

theorem parse_atail_step (g : Nat) (hd tl : Json) (rest : List Char)
    (hv : parseF (g + 1) .val (dchars .val hd ++ (dchars .atail tl ++ rest)) =
      some (hd, dchars .atail tl ++ rest))
    (htl : parseF (g + 1) .atail (dchars .atail tl ++ rest) = some (tl, rest)) :
    parseF (g + 2) .atail (dchars .atail (Json.jarrCons hd tl) ++ rest) =
      some (Json.jarrCons hd tl, rest) := by
  have htext : dchars .atail (Json.jarrCons hd tl) ++ rest =
      ',' :: ' ' :: (dchars .val hd ++ (dchars .atail tl ++ rest)) := by
    simp [dchars]
  rw [htext, parseF.eq_def]
  simp only []
  rw [skipWsL_cons_of_not_ws _ _ (by decide)]
  simp +decide only [if_false, if_true]
  rw [parse_val_space, hv]
  simp only []
  rw [htl]

theorem parse_arr_nil (f : Nat) (rest : List Char) :
    parseF (f + 1) .val (dchars .val Json.jarrNil ++ rest) = some (Json.jarrNil, rest) := by
  have htext : dchars .val Json.jarrNil ++ rest = '[' :: ']' :: rest := by simp [dchars]
  rw [htext, parseF.eq_def]
  simp only []
  rw [skipWsL_cons_of_not_ws _ _ (by decide)]
  simp +decide only [if_false, if_true]
  rw [skipWsL_cons_of_not_ws _ _ (by decide)]
  rfl

theorem parse_arr_head (g : Nat) (hd tl : Json) (rest X : List Char)
    (hX : dchars .val hd = obraceC :: X)
    (hv : parseF (g + 1) .val (dchars .val hd ++ (dchars .atail tl ++ rest)) =
      some (hd, dchars .atail tl ++ rest))
    (htl : parseF (g + 1) .atail (dchars .atail tl ++ rest) = some (tl, rest)) :
    parseF (g + 2) .val (dchars .val (Json.jarrCons hd tl) ++ rest) =
      some (Json.jarrCons hd tl, rest) := by
  have htext : dchars .val (Json.jarrCons hd tl) ++ rest =
      '[' :: (dchars .val hd ++ (dchars .atail tl ++ rest)) := by
    simp [dchars]
  rw [htext, parseF.eq_def]
  simp only []
  rw [skipWsL_cons_of_not_ws _ _ (by decide)]
  simp +decide only [if_false, if_true]
  rw [hX, List.cons_append, skipWsL_cons_of_not_ws _ _ (by decide)]
  split
  · rename_i r hm
    exfalso
    injection hm with h1 h2
    exact absurd h1 (by decide)
  · rw [← List.cons_append, ← hX, hv]
    simp only []
    rw [htl]

theorem parse_variant_val (f : Nat) (v : ProductVariant) (rest : List Char) :
    parseF (f + 6) .val (dchars .val (variantToJson v) ++ rest) =
      some (variantToJson v, rest) := by
  have h6 : parseF (f + 1) .otail (dchars .otail Json.jobjNil ++ rest) =
      some (Json.jobjNil, rest) := parse_otail_nil f rest
  have hv5 : parseF (f + 1) .val
      (dchars .val (Json.jstr v.sku) ++ (dchars .otail Json.jobjNil ++ rest)) =
      some (Json.jstr v.sku, dchars .otail Json.jobjNil ++ rest) := parse_str_val f _ _
  have h5 := parse_otail_step f ("sku") (Json.jstr v.sku) Json.jobjNil rest hv5 h6
  have hv4 : parseF (f + 2) .val
      (dchars .val (Json.jint v.stock) ++
        (dchars .otail (Json.jobjCons ("sku") (Json.jstr v.sku) Json.jobjNil) ++ rest)) =
      some (Json.jint v.stock,
        dchars .otail (Json.jobjCons ("sku") (Json.jstr v.sku) Json.jobjNil) ++ rest) := by
    obtain ⟨Y, hY⟩ : ∃ Y,
        dchars .otail (Json.jobjCons ("sku") (Json.jstr v.sku) Json.jobjNil) ++ rest =
          ',' :: Y := ⟨_, rfl⟩
    rw [show dchars .val (Json.jint v.stock) = intChars v.stock from rfl, hY]
    exact parseF_int_comma (f + 1) v.stock Y
  have h4 := parse_otail_step (f + 1) ("stock") (Json.jint v.stock)
    (Json.jobjCons ("sku") (Json.jstr v.sku) Json.jobjNil) rest hv4 h5
  have hv3 : parseF (f + 3) .val
      (dchars .val (Json.jstr v.color) ++
        (dchars .otail (Json.jobjCons ("stock") (Json.jint v.stock)
          (Json.jobjCons ("sku") (Json.jstr v.sku) Json.jobjNil)) ++ rest)) =
      some (Json.jstr v.color, _) := parse_str_val (f + 2) _ _
  have h3 := parse_otail_step (f + 2) ("color") (Json.jstr v.color)
    (Json.jobjCons ("stock") (Json.jint v.stock)
      (Json.jobjCons ("sku") (Json.jstr v.sku) Json.jobjNil)) rest hv3 h4
  have hv2 : parseF (f + 4) .val
      (dchars .val (Json.jstr v.size) ++
        (dchars .otail (Json.jobjCons ("color") (Json.jstr v.color)
          (Json.jobjCons ("stock") (Json.jint v.stock)
            (Json.jobjCons ("sku") (Json.jstr v.sku) Json.jobjNil))) ++ rest)) =
      some (Json.jstr v.size, _) := parse_str_val (f + 3) _ _
  have h2 := parse_otail_step (f + 3) ("size") (Json.jstr v.size)
    (Json.jobjCons ("color") (Json.jstr v.color)
      (Json.jobjCons ("stock") (Json.jint v.stock)
        (Json.jobjCons ("sku") (Json.jstr v.sku) Json.jobjNil))) rest hv2 h3
  have hv1 : parseF (f + 5) .val
      (dchars .val (Json.jstr v.id) ++
        (dchars .otail (Json.jobjCons ("size") (Json.jstr v.size)
          (Json.jobjCons ("color") (Json.jstr v.color)
            (Json.jobjCons ("stock") (Json.jint v.stock)
              (Json.jobjCons ("sku") (Json.jstr v.sku) Json.jobjNil)))) ++ rest)) =
      some (Json.jstr v.id, _) := parse_str_val (f + 4) _ _
  exact parse_obj_head (f + 4) ("id") (Json.jstr v.id)
    (Json.jobjCons ("size") (Json.jstr v.size)
      (Json.jobjCons ("color") (Json.jstr v.color)
        (Json.jobjCons ("stock") (Json.jint v.stock)
          (Json.jobjCons ("sku") (Json.jstr v.sku) Json.jobjNil)))) rest hv1 h2

theorem parse_variants_atail (vs : List ProductVariant) :
    ∀ (f : Nat) (rest : List Char),
    parseF (f + 7 * vs.length + 1) .atail
        (dchars .atail (jarrOfList (vs.map variantToJson)) ++ rest) =
      some (jarrOfList (vs.map variantToJson), rest) := by
  induction vs with
  | nil =>
    intro f rest
    exact parse_atail_nil _ rest
  | cons v vs' ih =>
    intro f rest
    rw [show f + 7 * (v :: vs').length + 1 = (f + 7 * vs'.length + 6) + 2 from by
      simp [List.length_cons]; ring]
    rw [List.map_cons, jarrOfList]
    refine parse_atail_step _ _ _ rest ?_ ?_
    · rw [show f + 7 * vs'.length + 6 + 1 = (f + 7 * vs'.length + 1) + 6 from by ring]
      exact parse_variant_val _ v _
    · rw [show f + 7 * vs'.length + 6 + 1 = (f + 6) + 7 * vs'.length + 1 from by ring]
      exact ih (f + 6) rest

theorem variant_val_head (v : ProductVariant) :
    dchars .val (variantToJson v) =
      obraceC :: (quoteC :: escList ("id").data ++
        quoteC :: ':' :: ' ' :: dchars .val (Json.jstr v.id) ++
        dchars .otail (Json.jobjCons ("size") (Json.jstr v.size)
          (Json.jobjCons ("color") (Json.jstr v.color)
            (Json.jobjCons ("stock") (Json.jint v.stock)
              (Json.jobjCons ("sku") (Json.jstr v.sku) Json.jobjNil))))) := rfl

theorem parse_variants_val (vs : List ProductVariant) (f : Nat) (rest : List Char) :
    parseF (f + 7 * vs.length + 2) .val
        (dchars .val (jarrOfList (vs.map variantToJson)) ++ rest) =
      some (jarrOfList (vs.map variantToJson), rest) := by
  rcases vs with _ | ⟨v, vs'⟩
  · exact parse_arr_nil _ rest
  · rw [show f + 7 * (v :: vs').length + 2 = (f + 7 * vs'.length + 7) + 2 from by
      simp [List.length_cons]; ring]
    rw [List.map_cons, jarrOfList]
    refine parse_arr_head _ _ _ rest _ (variant_val_head v) ?_ ?_
    · rw [show f + 7 * vs'.length + 7 + 1 = (f + 7 * vs'.length + 2) + 6 from by ring]
      exact parse_variant_val _ v _
    · rw [show f + 7 * vs'.length + 7 + 1 = (f + 7) + 7 * vs'.length + 1 from by ring]
      exact parse_variants_atail vs' (f + 7) rest

theorem len_variant_val (v : ProductVariant) :
    7 ≤ (dchars .val (variantToJson v)).length := by
  rw [variant_val_head]
  simp [List.length_append]
  have h : (escList ['i', 'd']).length = 2 := by decide
  omega

theorem len_variants_atail (vs : List ProductVariant) :
    7 * vs.length + 1 ≤ (dchars .atail (jarrOfList (vs.map variantToJson))).length := by
  induction vs with
  | nil => simp [jarrOfList, dchars]
  | cons v vs' ih =>
    rw [List.map_cons, jarrOfList]
    have hlen : (dchars .atail (Json.jarrCons (variantToJson v)
        (jarrOfList (vs'.map variantToJson)))).length =
        2 + (dchars .val (variantToJson v)).length +
          (dchars .atail (jarrOfList (vs'.map variantToJson))).length := by
      simp [dchars, List.length_append]
      ring
    rw [hlen]
    have h1 := len_variant_val v
    simp only [List.length_cons]
    omega

theorem len_variants_val (vs : List ProductVariant) :
    7 * vs.length + 1 ≤ (dchars .val (jarrOfList (vs.map variantToJson))).length := by
  rcases vs with _ | ⟨v, vs'⟩
  · simp [jarrOfList, dchars]
  · rw [List.map_cons, jarrOfList]
    have hlen : (dchars .val (Json.jarrCons (variantToJson v)
        (jarrOfList (vs'.map variantToJson)))).length =
        1 + (dchars .val (variantToJson v)).length +
          (dchars .atail (jarrOfList (vs'.map variantToJson))).length := by
      simp [dchars, List.length_append]
      ring
    rw [hlen]
    have h1 := len_variant_val v
    have h2 := len_variants_atail vs'
    simp only [List.length_cons]
    omega

/-- The variants-codec round trip at the JSON-text level: `json.loads` of
`json.dumps` of any serialized variant list returns exactly that value. -/
theorem parseJson_dumps_variants (vs : List ProductVariant) :
    parseJson (dumps (jarrOfList (vs.map variantToJson))) =
      some (jarrOfList (vs.map variantToJson)) := by
  rw [parseJson, dumps]
  have hdata : (String.mk (dchars .val (jarrOfList (vs.map variantToJson)))).data =
      dchars .val (jarrOfList (vs.map variantToJson)) := rfl
  rw [hdata]
  have hfuel : (dchars .val (jarrOfList (vs.map variantToJson))).length + 1 =
      ((dchars .val (jarrOfList (vs.map variantToJson))).length - (7 * vs.length + 1)) +
        7 * vs.length + 2 := by
    have := len_variants_val vs
    omega
  rw [hfuel]
  have hp := parse_variants_val vs
    ((dchars .val (jarrOfList (vs.map variantToJson))).length - (7 * vs.length + 1)) []
  rw [List.append_nil] at hp
  rw [hp]
  simp [skipWsL]

/-! ## Row-level lemmas -/

theorem getField_cons (k : String) (k' : String) (v' : Val) (l : Row) :
    getField ((k', v') :: l) k = if k' = k then some v' else getField l k := by
  by_cases h : k' = k
  · subst h; simp [getField, List.lookup]
  · have h2 : (k == k') = false := by
      simp only [beq_eq_false_iff_ne, ne_eq]
      exact fun hh => h hh.symm
    simp [getField, List.lookup, h2, h]

theorem getField_nil (k : String) : getField ([] : Row) k = none := rfl

theorem getField_append (r t : Row) (k : String) :
    getField (r ++ t) k =
      (match getField r k with
       | some v => some v
       | none => getField t k) := by
  induction r with
  | nil => simp [getField_nil, getField]
  | cons a l ih =>
    rcases a with ⟨k0, v0⟩
    rw [List.cons_append, getField_cons, getField_cons]
    by_cases h0 : k0 = k
    · simp [h0]
    · simp [h0, ih]

theorem getField_setField_self (r : Row) (k : String) (v : Val) :
    getField (setField r k v) k = some v := by
  induction r with
  | nil => simp [setField, getField_cons]
  | cons a l ih =>
    rcases a with ⟨k', v'⟩
    by_cases h : k' = k
    · subst h; simp [setField, getField_cons]
    · simp [setField, h, getField_cons, ih]

theorem getField_setField_ne (r : Row) (k k' : String) (v : Val) (h : k' ≠ k) :
    getField (setField r k v) k' = getField r k' := by
  induction r with
  | nil => simp [setField, getField_cons, getField_nil, Ne.symm h]
  | cons a l ih =>
    rcases a with ⟨k0, v0⟩
    by_cases h0 : k0 = k
    · subst h0; simp [setField, getField_cons, Ne.symm h]
    · simp [setField, h0, getField_cons, ih]

theorem getField_append_ne (r : Row) (k k' : String) (v : Val) (h : k' ≠ k) :
    getField (r ++ [(k, v)]) k' = getField r k' := by
  rw [getField_append]
  cases hx : getField r k'
  · simp [getField_cons, getField_nil, Ne.symm h]
  · simp

theorem getField_append_self_of_none (r : Row) (k : String) (v : Val)
    (h : getField r k = none) : getField (r ++ [(k, v)]) k = some v := by
  rw [getField_append, h]
  simp [getField_cons]

theorem getField_mapVals (f : String → Val → Val) (r : Row) (k : String) :
    getField (mapVals f r) k = (getField r k).map (f k) := by
  induction r with
  | nil => simp [mapVals, getField_nil]
  | cons a l ih =>
    rcases a with ⟨k0, v0⟩
    by_cases h0 : k0 = k
    · subst h0; simp [mapVals, getField_cons]
    · rw [mapVals, List.map_cons, getField_cons, getField_cons, if_neg h0, if_neg h0]
      exact ih

theorem hasField_setField_self (r : Row) (k : String) (v : Val) :
    hasField (setField r k v) k = true := by
  simp [hasField, getField_setField_self]

theorem hasField_setField_ne (r : Row) (k k' : String) (v : Val) (h : k' ≠ k) :
    hasField (setField r k v) k' = hasField r k' := by
  simp [hasField, getField_setField_ne r k k' v h]

theorem hasField_append_of (r : Row) (k k' : String) (v : Val)
    (h : hasField r k' = true) : hasField (r ++ [(k, v)]) k' = true := by
  rw [hasField, getField_append]
  rcases Option.isSome_iff_exists.mp (by simpa [hasField] using h) with ⟨w, hw⟩
  simp [hw]

theorem idMatches_setField (r : Row) (rid k : String) (v : Val) (h : k ≠ "id") :
    CSVHandler.idMatches (setField r k v) rid = CSVHandler.idMatches r rid := by
  simp only [CSVHandler.idMatches, getField_setField_ne r k _ v (Ne.symm h)]

theorem idMatches_append (r : Row) (rid k : String) (v : Val) (h : k ≠ "id") :
    CSVHandler.idMatches (r ++ [(k, v)]) rid = CSVHandler.idMatches r rid := by
  simp only [CSVHandler.idMatches, getField_append_ne r k _ v (Ne.symm h)]

/-! ## Lemmas about `CSVHandler.update` -/

theorem rowUpdF_nil (rid : String) (r : Row) : rowUpdF rid [] r = r := rfl

theorem rowUpdF_cons (rid : String) (kv : String × Val) (data : Row) (r : Row) :
    rowUpdF rid (kv :: data) r =
      rowUpdF rid data
        (if kv.1 = "id" then r
         else if CSVHandler.idMatches r rid then setField r kv.1 kv.2
         else if hasField r kv.1 then r else r ++ [(kv.1, Val.vnan)]) := rfl

theorem foldl_dfSetCol_eq_map (rid : String) (data : Row) :
    ∀ table : List Row,
      data.foldl
        (fun t kv => if kv.1 = "id" then t else CSVHandler.dfSetCol t rid kv.1 kv.2) table
        = table.map (rowUpdF rid data) := by
  induction data with
  | nil =>
    intro table
    have hmapid : table.map (rowUpdF rid []) = table.map id :=
      List.map_congr_left (fun r _ => rowUpdF_nil rid r)
    rw [List.foldl_nil, hmapid, List.map_id]
  | cons kv data' ih =>
    intro table
    rw [List.foldl_cons]
    by_cases hid : kv.1 = "id"
    · rw [if_pos hid, ih]
      apply List.map_congr_left
      intro r _
      rw [rowUpdF_cons, if_pos hid]
    · rw [if_neg hid, CSVHandler.dfSetCol, ih, List.map_map]
      apply List.map_congr_left
      intro r _
      rw [Function.comp_apply, rowUpdF_cons, if_neg hid]

theorem update_of_no_match (table : List Row) (rid : String) (data : Row)
    (h : ∀ r ∈ table, CSVHandler.idMatches r rid = false) :
    CSVHandler.update table rid data = (none, table) := by
  by_cases hemp : table.isEmpty
  · simp [CSVHandler.update, hemp]
  · have hany : table.any (fun r => CSVHandler.idMatches r rid) = false := by
      rw [List.any_eq_false]
      intro r hr
      simp [h r hr]
    simp [CSVHandler.update, hemp, hany]

theorem update_of_match (table : List Row) (rid : String) (data : Row)
    (h : ∃ r ∈ table, CSVHandler.idMatches r rid = true) :
    CSVHandler.update table rid data =
      ((table.map (rowUpdF rid data)).find? (fun r => CSVHandler.idMatches r rid),
        table.map (rowUpdF rid data)) := by
  obtain ⟨r, hr, hm⟩ := h
  have hemp : table.isEmpty = false := by
    cases table with
    | nil => cases hr
    | cons a l => rfl
  have hany : table.any (fun r => CSVHandler.idMatches r rid) = true :=
    List.any_eq_true.mpr ⟨r, hr, hm⟩
  simp [CSVHandler.update, hemp, hany, foldl_dfSetCol_eq_map]

theorem rowUpdF_idMatches_pres (rid : String) (data : Row) :
    ∀ (r : Row) (rid' : String),
      CSVHandler.idMatches (rowUpdF rid data r) rid' = CSVHandler.idMatches r rid' := by
  induction data with
  | nil => intro r rid'; rw [rowUpdF_nil]
  | cons kv data' ih =>
    intro r rid'
    rw [rowUpdF_cons]
    by_cases hid : kv.1 = "id"
    · rw [if_pos hid]; exact ih r rid'
    · rw [if_neg hid]
      by_cases hm : CSVHandler.idMatches r rid = true
      · rw [if_pos hm, ih, idMatches_setField _ _ _ _ hid]
      · rw [if_neg hm]
        by_cases hh : hasField r kv.1 = true
        · rw [if_pos hh]; exact ih r rid'
        · rw [if_neg hh, ih, idMatches_append _ _ _ _ hid]

theorem rowUpdF_getField_frame (rid : String) (data : Row) :
    ∀ (r : Row) (k : String), (k = "id" ∨ k ∉ data.map Prod.fst) →
      getField (rowUpdF rid data r) k = getField r k := by
  induction data with
  | nil => intro r k _; rw [rowUpdF_nil]
  | cons kv data' ih =>
    intro r k hk
    have hk' : k = "id" ∨ k ∉ data'.map Prod.fst := by
      rcases hk with h | h
      · exact Or.inl h
      · exact Or.inr (fun hm => h (by simp only [List.map_cons]; exact List.mem_cons_of_mem _ hm))
    rw [rowUpdF_cons]
    by_cases hid : kv.1 = "id"
    · rw [if_pos hid]; exact ih r k hk'
    · have hkne : k ≠ kv.1 := by
        rcases hk with h | h
        · subst h; exact fun hh => hid hh.symm
        · intro hh; exact h (by simp [hh])
      rw [if_neg hid]
      by_cases hm : CSVHandler.idMatches r rid = true
      · rw [if_pos hm, ih _ _ hk', getField_setField_ne _ _ _ _ hkne]
      · rw [if_neg hm]
        by_cases hh : hasField r kv.1 = true
        · rw [if_pos hh]; exact ih r k hk'
        · rw [if_neg hh, ih _ _ hk', getField_append_ne _ _ _ _ hkne]

theorem rowUpdF_getField_of_mem (rid : String) :
    ∀ (data : Row) (r : Row) (k : String) (v : Val),
      (data.map Prod.fst).Nodup → (k, v) ∈ data → k ≠ "id" →
      CSVHandler.idMatches r rid = true →
      getField (rowUpdF rid data r) k = some v := by
  intro data
  induction data with
  | nil => intro r k v _ hmem; cases hmem
  | cons kv data' ih =>
    intro r k v hnodup hmem hkid hm
    have h0 : kv.1 ∉ List.map Prod.fst data' ∧ (List.map Prod.fst data').Nodup := by
      rw [List.map_cons, List.nodup_cons] at hnodup
      exact hnodup
    rcases List.mem_cons.mp hmem with heq | hmem'
    · have hk1 : kv.1 = k := by rw [← heq]
      have hkv2 : kv.2 = v := by rw [← heq]
      rw [rowUpdF_cons, if_neg (hk1 ▸ hkid), if_pos hm]
      have hknotin : k ∉ data'.map Prod.fst := hk1 ▸ h0.1
      rw [rowUpdF_getField_frame rid data' _ k (Or.inr hknotin), hk1, hkv2]
      exact getField_setField_self r k v
    · have hkvne : kv.1 ≠ k := by
        intro hh
        exact h0.1 (hh ▸ List.mem_map_of_mem Prod.fst hmem')
      rw [rowUpdF_cons]
      by_cases hid : kv.1 = "id"
      · rw [if_pos hid]; exact ih r k v h0.2 hmem' hkid hm
      · rw [if_neg hid, if_pos hm]
        exact ih _ k v h0.2 hmem' hkid
          (by rw [idMatches_setField _ _ _ _ hid]; exact hm)

theorem rowUpdF_nonmatching (rid : String) :
    ∀ (data : Row) (r : Row), CSVHandler.idMatches r rid = false →
      (∀ kv ∈ data, hasField r kv.1 = true) → rowUpdF rid data r = r := by
  intro data
  induction data with
  | nil => intro r _ _; rfl
  | cons kv data' ih =>
    intro r hm hcols
    rw [rowUpdF_cons]
    by_cases hid : kv.1 = "id"
    · rw [if_pos hid]
      exact ih r hm (fun kv' h => hcols kv' (List.mem_cons_of_mem _ h))
    · rw [if_neg hid, if_neg (by simp [hm]),
        if_pos (hcols kv (List.mem_cons_self _ _))]
      exact ih r hm (fun kv' h => hcols kv' (List.mem_cons_of_mem _ h))

theorem find?_map_idPres (g : Row → Row) (rid : String)
    (hg : ∀ r, CSVHandler.idMatches (g r) rid = CSVHandler.idMatches r rid) :
    ∀ table : List Row,
      (table.map g).find? (fun r => CSVHandler.idMatches r rid) =
        (table.find? (fun r => CSVHandler.idMatches r rid)).map g := by
  intro table
  induction table with
  | nil => rfl
  | cons a l ih =>
    rw [List.map_cons, List.find?_cons, List.find?_cons, hg a]
    cases hma : CSVHandler.idMatches a rid
    · simpa using ih
    · simp

/-! ## Claim C8: delete is idempotent on missing keys -/

/-- C8: for every table and key, `delete` on a key with no matching row
returns `false` and leaves the table unchanged, and a repeated call does
the same; when a matching row exists, `delete` returns `true` and the
persisted table is the original with every matching row removed. -/
theorem delete_missing_idempotent (table : List Row) (rid : String) :
    ((∀ r ∈ table, CSVHandler.idMatches r rid = false) →
      CSVHandler.delete table rid = (false, table) ∧
      CSVHandler.delete (CSVHandler.delete table rid).2 rid = (false, table)) ∧
    ((∃ r ∈ table, CSVHandler.idMatches r rid = true) →
      (CSVHandler.delete table rid).1 = true ∧
      (CSVHandler.delete table rid).2 =
        table.filter (fun r => ¬ CSVHandler.idMatches r rid)) := by
  constructor
  · intro h
    have hfilter : table.filter (fun r => ¬ CSVHandler.idMatches r rid) = table := by
      rw [List.filter_eq_self]
      intro r hr
      simp [h r hr]
    have h1 : CSVHandler.delete table rid = (false, table) := by
      by_cases hemp : table.isEmpty
      · simp [CSVHandler.delete, hemp]
      · simp [CSVHandler.delete, hemp, hfilter]
        exact h
    refine ⟨h1, ?_⟩
    rw [h1]
    exact h1
  · rintro ⟨r, hr, hm⟩
    have hemp : table.isEmpty = false := by
      cases table with
      | nil => cases hr
      | cons a l => rfl
    have hnall : ¬ ∀ a ∈ table, CSVHandler.idMatches a rid = false := by
      intro hall
      rw [hall r hr] at hm
      cases hm
    constructor
    · simp [CSVHandler.delete, hemp, hnall]
    · simp [CSVHandler.delete, hemp, hnall]

/-- Witness for C8 at a concrete table: a missing key is reported `false`
twice with the table intact, and a present key is removed. -/
theorem delete_missing_idempotent_witness :
    CSVHandler.delete [[("id", Val.vstr "1")]] "zz" = (false, [[("id", Val.vstr "1")]]) ∧
    (CSVHandler.delete [[("id", Val.vstr "1")]] "1").1 = true := by
  refine ⟨((delete_missing_idempotent [[("id", Val.vstr "1")]] "zz").1 (by decide)).1, ?_⟩
  exact ((delete_missing_idempotent [[("id", Val.vstr "1")]] "1").2
    ⟨[("id", Val.vstr "1")], by decide, by decide⟩).1

/-! ## Claim C5: update overwrites exactly the listed fields

As stated, the claim fails: pandas setting with enlargement means a
payload naming a column absent from the frame adds that column to every
row, the non-matching rows receiving NaN — so "all other rows are
unchanged" does not hold for such payloads.  The counterexample exhibits
this; the amended theorem restricts the frame condition on other rows to
payloads whose fields are existing columns, which is the situation of
every caller in the repository (payload fields come from the entity
models, whose fields are the default columns). -/

/-- C5 counterexample: updating row `1` with a payload naming a fresh
column `extra` succeeds, but the non-matching row `2` now carries an
`extra` cell holding NaN — it is not unchanged. -/
theorem update_enlargement_counterexample :
    (CSVHandler.update
      [[("id", Val.vstr "1"), ("name", Val.vstr "a")],
       [("id", Val.vstr "2"), ("name", Val.vstr "b")]]
      "1" [("extra", Val.vstr "x")]).1.isSome = true ∧
    (CSVHandler.update
      [[("id", Val.vstr "1"), ("name", Val.vstr "a")],
       [("id", Val.vstr "2"), ("name", Val.vstr "b")]]
      "1" [("extra", Val.vstr "x")]).2[1]? ≠
      some [("id", Val.vstr "2"), ("name", Val.vstr "b")] := by
  constructor
  · decide
  · decide

/-- C5 (amended): update on a key with no matching row returns absent and
leaves the table unchanged.  On a match the persisted table is exactly the
per-row overwrite `rowUpdF` mapped over the table and the returned row is
its first match; `rowUpdF` leaves a non-matching row unchanged whenever
every payload field is an existing column of that row, never alters the
`id` field, leaves every field not named in the payload unchanged, and
sets each non-`id` payload field to its payload value on matching rows. -/
theorem update_overwrites_exactly_listed_fields
    (table : List Row) (rid : String) (data : Row) :
    ((∀ r ∈ table, CSVHandler.idMatches r rid = false) →
      CSVHandler.update table rid data = (none, table)) ∧
    ((∃ r ∈ table, CSVHandler.idMatches r rid = true) →
      (CSVHandler.update table rid data).2 = table.map (rowUpdF rid data) ∧
      (CSVHandler.update table rid data).1 =
        (table.map (rowUpdF rid data)).find? (fun r => CSVHandler.idMatches r rid)) ∧
    (∀ r, CSVHandler.idMatches r rid = false →
      (∀ kv ∈ data, hasField r kv.1 = true) → rowUpdF rid data r = r) ∧
    (∀ r k, (k = "id" ∨ k ∉ data.map Prod.fst) →
      getField (rowUpdF rid data r) k = getField r k) ∧
    (∀ r k v, (data.map Prod.fst).Nodup → (k, v) ∈ data → k ≠ "id" →
      CSVHandler.idMatches r rid = true →
      getField (rowUpdF rid data r) k = some v) := by
  refine ⟨update_of_no_match table rid data, ?_, ?_, ?_, ?_⟩
  · intro h
    rw [update_of_match table rid data h]
    exact ⟨rfl, rfl⟩
  · intro r hm hcols
    exact rowUpdF_nonmatching rid data r hm hcols
  · intro r k hk
    exact rowUpdF_getField_frame rid data r k hk
  · intro r k v hnodup hmem hkid hm
    exact rowUpdF_getField_of_mem rid data r k v hnodup hmem hkid hm

/-- Witness for C5 (amended) at a concrete two-row table with an existing
column payload: the other row is untouched, `id` is never altered even
though the payload names it, the listed field takes its payload value and
an unlisted field keeps its prior value. -/
theorem update_overwrites_exactly_listed_fields_witness :
    CSVHandler.update
      [[("id", Val.vstr "7"), ("name", Val.vstr "q")]] "zz"
      [("name", Val.vstr "w")] = (none, [[("id", Val.vstr "7"), ("name", Val.vstr "q")]]) ∧
    rowUpdF "1" [("name", Val.vstr "w"), ("id", Val.vstr "9")]
      [("id", Val.vstr "2"), ("name", Val.vstr "b")] =
      [("id", Val.vstr "2"), ("name", Val.vstr "b")] ∧
    getField (rowUpdF "1" [("name", Val.vstr "w"), ("id", Val.vstr "9")]
      [("id", Val.vstr "1"), ("name", Val.vstr "a"), ("price", Val.vint 3)]) ("id") =
      some (Val.vstr "1") ∧
    getField (rowUpdF "1" [("name", Val.vstr "w"), ("id", Val.vstr "9")]
      [("id", Val.vstr "1"), ("name", Val.vstr "a"), ("price", Val.vint 3)]) ("price") =
      some (Val.vint 3) ∧
    getField (rowUpdF "1" [("name", Val.vstr "w"), ("id", Val.vstr "9")]
      [("id", Val.vstr "1"), ("name", Val.vstr "a"), ("price", Val.vint 3)]) ("name") =
      some (Val.vstr "w") := by
  refine ⟨(update_overwrites_exactly_listed_fields
      [[("id", Val.vstr "7"), ("name", Val.vstr "q")]] "zz"
      [("name", Val.vstr "w")]).1 (by decide),
    (update_overwrites_exactly_listed_fields []
      "1" [("name", Val.vstr "w"), ("id", Val.vstr "9")]).2.2.1 _ (by decide) (by decide),
    (update_overwrites_exactly_listed_fields []
      "1" [("name", Val.vstr "w"), ("id", Val.vstr "9")]).2.2.2.1 _ ("id") (Or.inl rfl),
    (update_overwrites_exactly_listed_fields []
      "1" [("name", Val.vstr "w"), ("id", Val.vstr "9")]).2.2.2.1 _ ("price") (Or.inr (by decide)),
    (update_overwrites_exactly_listed_fields []
      "1" [("name", Val.vstr "w"), ("id", Val.vstr "9")]).2.2.2.2 _ ("name") (Val.vstr "w")
      (by decide) (by decide) (by decide) (by decide)⟩

/-! ## Claim C4: sale creation is not atomic -/

/-- A two-item sale request whose second item references a missing
product. -/
def twoItemSale : SaleCreate :=
  { customer_id := none,
    items := [{ product_id := "p1", variant_id := none, quantity := 2, price := 5,
                product_name := none },
              { product_id := "p2", variant_id := none, quantity := 1, price := 5,
                product_name := none }],
    subtotal := 15, total := 15, payment_method := "cash", cashier_id := "u1",
    timestamp := some "2025-01-01T00:00:00", status := "completed",
    paid_amount := some 15, remaining_amount := none }

def twoItemState : St :=
  { products := [[("id", Val.vstr "p1"), ("stock", Val.vint 5)]],
    customers := [], sales := [] }

/-- C4: on a request whose first item has sufficient stock but whose
second references an absent product, `create_sale` returns an error, no
sale record is inserted, and the first item's stock decrement (5 to 3)
has already been persisted with no rollback. -/
theorem create_sale_not_atomic :
    (create_sale twoItemState twoItemSale "sale1" "2025-01-01T00:00:01").1 =
      .error (.productNotFound "p2") ∧
    (create_sale twoItemState twoItemSale "sale1" "2025-01-01T00:00:01").2.sales = [] ∧
    pyGetInt
      ((ProductCSVHandler.find_by_id
        (create_sale twoItemState twoItemSale "sale1" "2025-01-01T00:00:01").2.products
        "p1").getD []) ("stock") 99 = 3 := by
  refine ⟨?_, ?_, ?_⟩ <;> with_unfolding_all decide

/-! ## Frame and computation lemmas for the codec steps -/

theorem strifyField_getField_ne (r : Row) (k0 k : String) (h : k ≠ k0) :
    getField (ProductCSVHandler.strifyField r k0) k = getField r k := by
  rcases hv : getField r k0 with _ | v
  · simp [ProductCSVHandler.strifyField, hv]
  · simp [ProductCSVHandler.strifyField, hv, getField_setField_ne _ _ _ _ h]

theorem coerceFloatField_getField_ne (r : Row) (k0 k : String) (h : k ≠ k0) :
    getField (ProductCSVHandler.coerceFloatField r k0) k = getField r k := by
  rcases hv : getField r k0 with _ | v
  · simp [ProductCSVHandler.coerceFloatField, hv]
  · cases v <;> simp [ProductCSVHandler.coerceFloatField, hv, getField_setField_ne _ _ _ _ h]

theorem coerceIntField_getField_ne (r : Row) (k0 k : String) (h : k ≠ k0) :
    getField (ProductCSVHandler.coerceIntField r k0) k = getField r k := by
  rcases hv : getField r k0 with _ | v
  · simp [ProductCSVHandler.coerceIntField, hv]
  · cases v <;> simp [ProductCSVHandler.coerceIntField, hv, getField_setField_ne _ _ _ _ h]

theorem coerceFloatField_at_float (r : Row) (k : String) (q : Rat)
    (hv : getField r k = some (Val.vfloat q)) :
    getField (ProductCSVHandler.coerceFloatField r k) k = some (Val.vfloat q) := by
  simp [ProductCSVHandler.coerceFloatField, hv, pyFloatV, getField_setField_self]

theorem coerceFloatField_at_int (r : Row) (k : String) (n : Int)
    (hv : getField r k = some (Val.vint n)) :
    getField (ProductCSVHandler.coerceFloatField r k) k = some (Val.vfloat (n : Rat)) := by
  simp [ProductCSVHandler.coerceFloatField, hv, pyFloatV, getField_setField_self]

theorem coerceIntField_at_int (r : Row) (k : String) (n : Int)
    (hv : getField r k = some (Val.vint n)) :
    getField (ProductCSVHandler.coerceIntField r k) k = some (Val.vint n) := by
  simp [ProductCSVHandler.coerceIntField, hv, pyIntV, getField_setField_self]

theorem jsonDecodeField_getField_ne (r : Row) (k0 k : String) (dflt : Json) (h : k ≠ k0) :
    getField (jsonDecodeField r k0 dflt) k = getField r k := by
  rcases hv : getField r k0 with _ | v
  · simp [jsonDecodeField, hv, getField_append_ne _ _ _ _ h]
  · cases v <;> simp [jsonDecodeField, hv, getField_setField_ne _ _ _ _ h]

theorem serializeItems_getField_ne (d : Row) (k : String) (h : k ≠ "items") :
    getField (SalesCSVHandler.serializeItems d) k = getField d k := by
  rcases hv : getField d ("items") with _ | v
  · simp [SalesCSVHandler.serializeItems, hv]
  · cases v with
    | vjson j =>
      cases j <;> simp [SalesCSVHandler.serializeItems, hv, getField_setField_ne _ _ _ _ h]
    | _ => simp [SalesCSVHandler.serializeItems, hv]

theorem serializeVariants_getField_ne (d : Row) (k : String) (h : k ≠ "variants") :
    getField (ProductCSVHandler.serializeVariants d) k = getField d k := by
  rcases hv : getField d ("variants") with _ | v
  · simp [ProductCSVHandler.serializeVariants, hv]
  · cases v with
    | vjson j =>
      cases j <;> simp [ProductCSVHandler.serializeVariants, hv, getField_setField_ne _ _ _ _ h]
    | vstr s =>
      by_cases hp : (parseJson s).isSome <;>
        simp [ProductCSVHandler.serializeVariants, hv, hp, getField_setField_ne _ _ _ _ h]
    | _ => simp [ProductCSVHandler.serializeVariants, hv, getField_setField_ne _ _ _ _ h]

theorem serializePreferences_getField_ne (d : Row) (k : String) (h : k ≠ "preferences") :
    getField (CustomerCSVHandler.serializePreferences d) k = getField d k := by
  rcases hv : getField d ("preferences") with _ | v
  · simp [CustomerCSVHandler.serializePreferences, hv]
  · cases v with
    | vjson j =>
      cases j <;> simp [CustomerCSVHandler.serializePreferences, hv,
        getField_setField_ne _ _ _ _ h]
    | _ => simp [CustomerCSVHandler.serializePreferences, hv]

/-- What `_process_sale_record` does to a money field holding a float:
the value survives unchanged. -/
theorem process_sale_record_money_float (r : Row) (k : String) (q : Rat)
    (hk : k = "subtotal" ∨ k = "total" ∨ k = "paid_amount" ∨ k = "remaining_amount")
    (hv : getField r k = some (Val.vfloat q)) :
    getField (SalesCSVHandler.process_sale_record r) k = some (Val.vfloat q) := by
  have hki : k ≠ "id" := by rcases hk with h | h | h | h <;> subst h <;> decide
  have hkc : k ≠ "cashier_id" := by rcases hk with h | h | h | h <;> subst h <;> decide
  have hkit : k ≠ "items" := by rcases hk with h | h | h | h <;> subst h <;> decide
  unfold SalesCSVHandler.process_sale_record
  have h1 : getField (mapVals (fun k v => if isNanLike v then SalesCSVHandler.nanRepl k else v) r) k
      = some (Val.vfloat q) := by
    rw [getField_mapVals, hv]
    simp [isNanLike]
  rw [jsonDecodeField_getField_ne _ _ _ _ hkit]
  rcases hk with h | h | h | h <;> subst h
  · rw [coerceFloatField_getField_ne _ _ _ (by decide),
      coerceFloatField_getField_ne _ _ _ (by decide),
      coerceFloatField_getField_ne _ _ _ (by decide),
      coerceFloatField_at_float _ _ q
        (by rw [strifyField_getField_ne _ _ _ hkc, strifyField_getField_ne _ _ _ hki]; exact h1)]
  · rw [coerceFloatField_getField_ne _ _ _ (by decide),
      coerceFloatField_getField_ne _ _ _ (by decide),
      coerceFloatField_at_float _ _ q
        (by rw [coerceFloatField_getField_ne _ _ _ (by decide),
          strifyField_getField_ne _ _ _ hkc, strifyField_getField_ne _ _ _ hki]; exact h1)]
  · rw [coerceFloatField_getField_ne _ _ _ (by decide),
      coerceFloatField_at_float _ _ q
        (by rw [coerceFloatField_getField_ne _ _ _ (by decide),
          coerceFloatField_getField_ne _ _ _ (by decide),
          strifyField_getField_ne _ _ _ hkc, strifyField_getField_ne _ _ _ hki]; exact h1)]
  · rw [coerceFloatField_at_float _ _ q
        (by rw [coerceFloatField_getField_ne _ _ _ (by decide),
          coerceFloatField_getField_ne _ _ _ (by decide),
          coerceFloatField_getField_ne _ _ _ (by decide),
          strifyField_getField_ne _ _ _ hkc, strifyField_getField_ne _ _ _ hki]; exact h1)]

/-- What `_process_sale_record` does to a money field holding an int:
`float()` turns it into the equal float. -/
theorem process_sale_record_money_int (r : Row) (k : String) (n : Int)
    (hk : k = "subtotal" ∨ k = "total" ∨ k = "paid_amount" ∨ k = "remaining_amount")
    (hv : getField r k = some (Val.vint n)) :
    getField (SalesCSVHandler.process_sale_record r) k = some (Val.vfloat (n : Rat)) := by
  have hki : k ≠ "id" := by rcases hk with h | h | h | h <;> subst h <;> decide
  have hkc : k ≠ "cashier_id" := by rcases hk with h | h | h | h <;> subst h <;> decide
  have hkit : k ≠ "items" := by rcases hk with h | h | h | h <;> subst h <;> decide
  unfold SalesCSVHandler.process_sale_record
  have h1 : getField (mapVals (fun k v => if isNanLike v then SalesCSVHandler.nanRepl k else v) r) k
      = some (Val.vint n) := by
    rw [getField_mapVals, hv]
    simp [isNanLike]
  rw [jsonDecodeField_getField_ne _ _ _ _ hkit]
  rcases hk with h | h | h | h <;> subst h
  · rw [coerceFloatField_getField_ne _ _ _ (by decide),
      coerceFloatField_getField_ne _ _ _ (by decide),
      coerceFloatField_getField_ne _ _ _ (by decide),
      coerceFloatField_at_int _ _ n
        (by rw [strifyField_getField_ne _ _ _ hkc, strifyField_getField_ne _ _ _ hki]; exact h1)]
  · rw [coerceFloatField_getField_ne _ _ _ (by decide),
      coerceFloatField_getField_ne _ _ _ (by decide),
      coerceFloatField_at_int _ _ n
        (by rw [coerceFloatField_getField_ne _ _ _ (by decide),
          strifyField_getField_ne _ _ _ hkc, strifyField_getField_ne _ _ _ hki]; exact h1)]
  · rw [coerceFloatField_getField_ne _ _ _ (by decide),
      coerceFloatField_at_int _ _ n
        (by rw [coerceFloatField_getField_ne _ _ _ (by decide),
          coerceFloatField_getField_ne _ _ _ (by decide),
          strifyField_getField_ne _ _ _ hkc, strifyField_getField_ne _ _ _ hki]; exact h1)]
  · rw [coerceFloatField_at_int _ _ n
        (by rw [coerceFloatField_getField_ne _ _ _ (by decide),
          coerceFloatField_getField_ne _ _ _ (by decide),
          coerceFloatField_getField_ne _ _ _ (by decide),
          strifyField_getField_ne _ _ _ hkc, strifyField_getField_ne _ _ _ hki]; exact h1)]

/-- `_process_sale_record` leaves a non-NaN-spelled string `status`
unchanged. -/
theorem process_sale_record_status (r : Row) (st : String)
    (hv : getField r ("status") = some (Val.vstr st))
    (hnan : isNanLike (Val.vstr st) = false) :
    getField (SalesCSVHandler.process_sale_record r) ("status") = some (Val.vstr st) := by
  unfold SalesCSVHandler.process_sale_record
  have h1 : getField (mapVals (fun k v => if isNanLike v then SalesCSVHandler.nanRepl k else v) r)
      ("status") = some (Val.vstr st) := by
    rw [getField_mapVals, hv]
    simp [hnan]
  rw [jsonDecodeField_getField_ne _ _ _ _ (by decide),
    coerceFloatField_getField_ne _ _ _ (by decide),
    coerceFloatField_getField_ne _ _ _ (by decide),
    coerceFloatField_getField_ne _ _ _ (by decide),
    coerceFloatField_getField_ne _ _ _ (by decide),
    strifyField_getField_ne _ _ _ (by decide),
    strifyField_getField_ne _ _ _ (by decide)]
  exact h1

/-! ## Claim C2: partial-payment bookkeeping on sale creation -/

/-- C2: whenever the sale payload carries float values for both
`paid_amount` and `total`, `SalesCSVHandler.create` succeeds, appends one
row, and: on `paid_amount ≥ total` the stored row has status `completed`,
`remaining_amount` `0` and `paid_amount` clamped down to `total` (the
processed response showing the same values as floats); on
`paid_amount < total` it has status `partial_payment` and
`remaining_amount = total − paid_amount` with `paid_amount` untouched. -/
theorem sales_create_payment_status
    (table : List Row) (newId now : String) (data : Row) (p t : Rat)
    (hp : getField data ("paid_amount") = some (Val.vfloat p))
    (ht : getField data ("total") = some (Val.vfloat t)) :
    ∃ stored rec,
      SalesCSVHandler.create table newId now data = .ok (rec, table ++ [stored]) ∧
      (p ≥ t →
        getField stored ("status") = some (Val.vstr "completed") ∧
        getField stored ("remaining_amount") = some (Val.vint 0) ∧
        getField stored ("paid_amount") = some (Val.vfloat t) ∧
        getField rec ("status") = some (Val.vstr "completed") ∧
        getField rec ("remaining_amount") = some (Val.vfloat 0) ∧
        getField rec ("paid_amount") = some (Val.vfloat t)) ∧
      (p < t →
        getField stored ("status") = some (Val.vstr "partial_payment") ∧
        getField stored ("remaining_amount") = some (Val.vfloat (t - p)) ∧
        getField stored ("paid_amount") = some (Val.vfloat p) ∧
        getField rec ("status") = some (Val.vstr "partial_payment") ∧
        getField rec ("remaining_amount") = some (Val.vfloat (t - p)) ∧
        getField rec ("paid_amount") = some (Val.vfloat p)) := by
  have hp1 : getField (SalesCSVHandler.serializeItems data) ("paid_amount") =
      some (Val.vfloat p) := by rw [serializeItems_getField_ne _ _ (by decide)]; exact hp
  have ht1 : getField (SalesCSVHandler.serializeItems data) ("total") =
      some (Val.vfloat t) := by rw [serializeItems_getField_ne _ _ (by decide)]; exact ht
  set d1 := SalesCSVHandler.serializeItems data with hd1
  set d2 := if hasField d1 ("timestamp") then d1 else d1 ++ [("timestamp", Val.vstr now)]
    with hd2
  have hp2 : getField d2 ("paid_amount") = some (Val.vfloat p) := by
    rw [hd2]
    by_cases hts : hasField d1 ("timestamp")
    · rw [if_pos hts]; exact hp1
    · rw [if_neg hts, getField_append_ne _ _ _ _ (by decide)]; exact hp1
  have ht2 : getField d2 ("total") = some (Val.vfloat t) := by
    rw [hd2]
    by_cases hts : hasField d1 ("timestamp")
    · rw [if_pos hts]; exact ht1
    · rw [if_neg hts, getField_append_ne _ _ _ _ (by decide)]; exact ht1
  have hcreate : SalesCSVHandler.create table newId now data =
      (let d3 :=
        if p ≥ t then
          setField (setField (setField d2 ("status") (Val.vstr "completed"))
            ("remaining_amount") (Val.vint 0)) ("paid_amount") (Val.vfloat t)
        else
          setField (setField d2 ("status") (Val.vstr "partial_payment"))
            ("remaining_amount") (Val.vfloat (t - p))
      let pr := CSVHandler.create table newId d3
      .ok (SalesCSVHandler.process_sale_record pr.1, pr.2)) := by
    rw [SalesCSVHandler.create, ← hd1, ← hd2,
      if_pos (by rw [hasField, hp2, hasField, ht2]; rfl), hp2, ht2]
    rfl
  by_cases hge : p ≥ t
  · -- full payment
    set d3 := setField (setField (setField d2 ("status") (Val.vstr "completed"))
      ("remaining_amount") (Val.vint 0)) ("paid_amount") (Val.vfloat t) with hd3
    have hst : getField d3 ("status") = some (Val.vstr "completed") := by
      rw [hd3, getField_setField_ne _ _ _ _ (by decide),
        getField_setField_ne _ _ _ _ (by decide), getField_setField_self]
    have hrem : getField d3 ("remaining_amount") = some (Val.vint 0) := by
      rw [hd3, getField_setField_ne _ _ _ _ (by decide), getField_setField_self]
    have hpa : getField d3 ("paid_amount") = some (Val.vfloat t) := by
      rw [hd3, getField_setField_self]
    set stored := if hasField d3 ("id") then d3 else d3 ++ [("id", Val.vstr newId)]
      with hstored
    have hsst : getField stored ("status") = some (Val.vstr "completed") := by
      rw [hstored]
      by_cases hid : hasField d3 ("id")
      · rw [if_pos hid]; exact hst
      · rw [if_neg hid, getField_append_ne _ _ _ _ (by decide)]; exact hst
    have hsrem : getField stored ("remaining_amount") = some (Val.vint 0) := by
      rw [hstored]
      by_cases hid : hasField d3 ("id")
      · rw [if_pos hid]; exact hrem
      · rw [if_neg hid, getField_append_ne _ _ _ _ (by decide)]; exact hrem
    have hspa : getField stored ("paid_amount") = some (Val.vfloat t) := by
      rw [hstored]
      by_cases hid : hasField d3 ("id")
      · rw [if_pos hid]; exact hpa
      · rw [if_neg hid, getField_append_ne _ _ _ _ (by decide)]; exact hpa
    refine ⟨stored, SalesCSVHandler.process_sale_record stored, ?_, ?_, ?_⟩
    · rw [hcreate]
      simp only [if_pos hge]
      have hc2 : CSVHandler.create table newId d3 = (stored, table ++ [stored]) := by
        simp only [CSVHandler.create]
      rw [hc2]
    · intro _
      refine ⟨hsst, hsrem, hspa, ?_, ?_, ?_⟩
      · exact process_sale_record_status _ _ hsst (by decide)
      · have := process_sale_record_money_int stored ("remaining_amount") 0
          (by simp) hsrem
        simpa using this
      · exact process_sale_record_money_float stored ("paid_amount") t (by simp) hspa
    · intro hlt
      exact absurd hge (not_le.mpr hlt)
  · -- partial payment
    have hlt : p < t := lt_of_not_ge hge
    set d3 := setField (setField d2 ("status") (Val.vstr "partial_payment"))
      ("remaining_amount") (Val.vfloat (t - p)) with hd3
    have hst : getField d3 ("status") = some (Val.vstr "partial_payment") := by
      rw [hd3, getField_setField_ne _ _ _ _ (by decide), getField_setField_self]
    have hrem : getField d3 ("remaining_amount") = some (Val.vfloat (t - p)) := by
      rw [hd3, getField_setField_self]
    have hpa : getField d3 ("paid_amount") = some (Val.vfloat p) := by
      rw [hd3, getField_setField_ne _ _ _ _ (by decide),
        getField_setField_ne _ _ _ _ (by decide)]
      exact hp2
    set stored := if hasField d3 ("id") then d3 else d3 ++ [("id", Val.vstr newId)]
      with hstored
    have hsst : getField stored ("status") = some (Val.vstr "partial_payment") := by
      rw [hstored]
      by_cases hid : hasField d3 ("id")
      · rw [if_pos hid]; exact hst
      · rw [if_neg hid, getField_append_ne _ _ _ _ (by decide)]; exact hst
    have hsrem : getField stored ("remaining_amount") = some (Val.vfloat (t - p)) := by
      rw [hstored]
      by_cases hid : hasField d3 ("id")
      · rw [if_pos hid]; exact hrem
      · rw [if_neg hid, getField_append_ne _ _ _ _ (by decide)]; exact hrem
    have hspa : getField stored ("paid_amount") = some (Val.vfloat p) := by
      rw [hstored]
      by_cases hid : hasField d3 ("id")
      · rw [if_pos hid]; exact hpa
      · rw [if_neg hid, getField_append_ne _ _ _ _ (by decide)]; exact hpa
    refine ⟨stored, SalesCSVHandler.process_sale_record stored, ?_, ?_, ?_⟩
    · rw [hcreate]
      simp only [if_neg hge]
      have hc2 : CSVHandler.create table newId d3 = (stored, table ++ [stored]) := by
        simp only [CSVHandler.create]
      rw [hc2]
    · intro hge2
      exact absurd hge2 hge
    · intro _
      refine ⟨hsst, hsrem, hspa, ?_, ?_, ?_⟩
      · exact process_sale_record_status _ _ hsst (by decide)
      · exact process_sale_record_money_float stored ("remaining_amount") (t - p) (by simp) hsrem
      · exact process_sale_record_money_float stored ("paid_amount") p (by simp) hspa

/-- Witness for C2: Scenario B.  A sale with total 100 and paid 40 stores
status `partial_payment` with remaining 60; paid 150 stores `completed`
with remaining 0 and paid clamped to 100. -/
theorem sales_create_payment_status_witness :
    (∃ stored rec,
      SalesCSVHandler.create [] "s1" "now"
        [("total", Val.vfloat 100), ("paid_amount", Val.vfloat 40)] =
        .ok (rec, [] ++ [stored]) ∧
      ((40 : Rat) ≥ 100 →
        getField stored ("status") = some (Val.vstr "completed") ∧
        getField stored ("remaining_amount") = some (Val.vint 0) ∧
        getField stored ("paid_amount") = some (Val.vfloat 100) ∧
        getField rec ("status") = some (Val.vstr "completed") ∧
        getField rec ("remaining_amount") = some (Val.vfloat 0) ∧
        getField rec ("paid_amount") = some (Val.vfloat 100)) ∧
      ((40 : Rat) < 100 →
        getField stored ("status") = some (Val.vstr "partial_payment") ∧
        getField stored ("remaining_amount") = some (Val.vfloat (100 - 40)) ∧
        getField stored ("paid_amount") = some (Val.vfloat 40) ∧
        getField rec ("status") = some (Val.vstr "partial_payment") ∧
        getField rec ("remaining_amount") = some (Val.vfloat (100 - 40)) ∧
        getField rec ("paid_amount") = some (Val.vfloat 40))) ∧
    (∃ stored rec,
      SalesCSVHandler.create [] "s1" "now"
        [("total", Val.vfloat 100), ("paid_amount", Val.vfloat 150)] =
        .ok (rec, [] ++ [stored]) ∧
      ((150 : Rat) ≥ 100 →
        getField stored ("status") = some (Val.vstr "completed") ∧
        getField stored ("remaining_amount") = some (Val.vint 0) ∧
        getField stored ("paid_amount") = some (Val.vfloat 100) ∧
        getField rec ("status") = some (Val.vstr "completed") ∧
        getField rec ("remaining_amount") = some (Val.vfloat 0) ∧
        getField rec ("paid_amount") = some (Val.vfloat 100)) ∧
      ((150 : Rat) < 100 →
        getField stored ("status") = some (Val.vstr "partial_payment") ∧
        getField stored ("remaining_amount") = some (Val.vfloat (100 - 150)) ∧
        getField stored ("paid_amount") = some (Val.vfloat 150) ∧
        getField rec ("status") = some (Val.vstr "partial_payment") ∧
        getField rec ("remaining_amount") = some (Val.vfloat (100 - 150)) ∧
        getField rec ("paid_amount") = some (Val.vfloat 150))) :=
  ⟨sales_create_payment_status [] "s1" "now"
      [("total", Val.vfloat 100), ("paid_amount", Val.vfloat 40)] 40 100
      (by decide) (by decide),
    sales_create_payment_status [] "s1" "now"
      [("total", Val.vfloat 100), ("paid_amount", Val.vfloat 150)] 150 100
      (by decide) (by decide)⟩

/-! ## Customer codec lemmas -/

theorem coerceFloatFieldOrZero_getField_ne (r : Row) (k0 k : String) (h : k ≠ k0) :
    getField (CustomerCSVHandler.coerceFloatFieldOrZero r k0) k = getField r k := by
  rcases hv : getField r k0 with _ | v
  · simp [CustomerCSVHandler.coerceFloatFieldOrZero, hv]
  · cases v <;> simp [CustomerCSVHandler.coerceFloatFieldOrZero, hv,
      getField_setField_ne _ _ _ _ h]

theorem coerceIntFieldOrZero_getField_ne (r : Row) (k0 k : String) (h : k ≠ k0) :
    getField (CustomerCSVHandler.coerceIntFieldOrZero r k0) k = getField r k := by
  rcases hv : getField r k0 with _ | v
  · simp [CustomerCSVHandler.coerceIntFieldOrZero, hv]
  · cases v <;> simp [CustomerCSVHandler.coerceIntFieldOrZero, hv,
      getField_setField_ne _ _ _ _ h]

theorem coerceFloatFieldOrZero_at_float (r : Row) (k : String) (q : Rat)
    (hv : getField r k = some (Val.vfloat q)) :
    getField (CustomerCSVHandler.coerceFloatFieldOrZero r k) k = some (Val.vfloat q) := by
  simp [CustomerCSVHandler.coerceFloatFieldOrZero, hv, pyFloatV, getField_setField_self]

theorem coerceIntFieldOrZero_at_int (r : Row) (k : String) (n : Int)
    (hv : getField r k = some (Val.vint n)) :
    getField (CustomerCSVHandler.coerceIntFieldOrZero r k) k = some (Val.vint n) := by
  simp [CustomerCSVHandler.coerceIntFieldOrZero, hv, pyIntV, getField_setField_self]

theorem process_customer_record_total_spent (r : Row) (q : Rat)
    (hv : getField r ("total_spent") = some (Val.vfloat q)) :
    getField (CustomerCSVHandler.process_customer_record r) ("total_spent") =
      some (Val.vfloat q) := by
  unfold CustomerCSVHandler.process_customer_record
  have h1 : getField
      (mapVals (fun k v => if isNanLike v || v == Val.vstr "" then CustomerCSVHandler.nanRepl k
        else v) r) ("total_spent") = some (Val.vfloat q) := by
    rw [getField_mapVals, hv]
    simp [isNanLike]
  rw [jsonDecodeField_getField_ne _ _ _ _ (by decide),
    coerceIntFieldOrZero_getField_ne _ _ _ (by decide),
    coerceFloatFieldOrZero_at_float _ _ q
      (by rw [coerceIntFieldOrZero_getField_ne _ _ _ (by decide),
        strifyField_getField_ne _ _ _ (by decide)]; exact h1)]

theorem process_customer_record_visits (r : Row) (n : Int)
    (hv : getField r ("visits") = some (Val.vint n)) :
    getField (CustomerCSVHandler.process_customer_record r) ("visits") =
      some (Val.vint n) := by
  unfold CustomerCSVHandler.process_customer_record
  have h1 : getField
      (mapVals (fun k v => if isNanLike v || v == Val.vstr "" then CustomerCSVHandler.nanRepl k
        else v) r) ("visits") = some (Val.vint n) := by
    rw [getField_mapVals, hv]
    simp [isNanLike]
  rw [jsonDecodeField_getField_ne _ _ _ _ (by decide),
    coerceIntFieldOrZero_at_int _ _ n
      (by rw [coerceFloatFieldOrZero_getField_ne _ _ _ (by decide),
        coerceIntFieldOrZero_getField_ne _ _ _ (by decide),
        strifyField_getField_ne _ _ _ (by decide)]; exact h1)]

theorem process_customer_record_loyalty (r : Row) (n : Int)
    (hv : getField r ("loyalty_points") = some (Val.vint n)) :
    getField (CustomerCSVHandler.process_customer_record r) ("loyalty_points") =
      some (Val.vint n) := by
  unfold CustomerCSVHandler.process_customer_record
  have h1 : getField
      (mapVals (fun k v => if isNanLike v || v == Val.vstr "" then CustomerCSVHandler.nanRepl k
        else v) r) ("loyalty_points") = some (Val.vint n) := by
    rw [getField_mapVals, hv]
    simp [isNanLike]
  rw [jsonDecodeField_getField_ne _ _ _ _ (by decide),
    coerceIntFieldOrZero_getField_ne _ _ _ (by decide),
    coerceFloatFieldOrZero_getField_ne _ _ _ (by decide),
    coerceIntFieldOrZero_at_int _ _ n
      (by rw [strifyField_getField_ne _ _ _ (by decide)]; exact h1)]

theorem process_customer_record_last_visit (r : Row) (now : String)
    (hv : getField r ("last_visit") = some (Val.vstr now))
    (hnan : isNanLike (Val.vstr now) = false) (hne : now ≠ "") :
    getField (CustomerCSVHandler.process_customer_record r) ("last_visit") =
      some (Val.vstr now) := by
  unfold CustomerCSVHandler.process_customer_record
  have h1 : getField
      (mapVals (fun k v => if isNanLike v || v == Val.vstr "" then CustomerCSVHandler.nanRepl k
        else v) r) ("last_visit") = some (Val.vstr now) := by
    rw [getField_mapVals, hv]
    simp [hnan, hne]
  rw [jsonDecodeField_getField_ne _ _ _ _ (by decide),
    coerceIntFieldOrZero_getField_ne _ _ _ (by decide),
    coerceFloatFieldOrZero_getField_ne _ _ _ (by decide),
    coerceIntFieldOrZero_getField_ne _ _ _ (by decide),
    strifyField_getField_ne _ _ _ (by decide)]
  exact h1

/-! ## A successful `SalesCSVHandler.create` when both floats are present

This shape is needed by more than one endpoint-level argument. -/

theorem sales_create_ok_of_floats
    (table : List Row) (newId now : String) (data : Row) (p t : Rat)
    (hp : getField data ("paid_amount") = some (Val.vfloat p))
    (ht : getField data ("total") = some (Val.vfloat t)) :
    ∃ rec tbl, SalesCSVHandler.create table newId now data = .ok (rec, tbl) := by
  have hp1 : getField (SalesCSVHandler.serializeItems data) ("paid_amount") =
      some (Val.vfloat p) := by rw [serializeItems_getField_ne _ _ (by decide)]; exact hp
  have ht1 : getField (SalesCSVHandler.serializeItems data) ("total") =
      some (Val.vfloat t) := by rw [serializeItems_getField_ne _ _ (by decide)]; exact ht
  set d1 := SalesCSVHandler.serializeItems data with hd1
  set d2 := if hasField d1 ("timestamp") then d1 else d1 ++ [("timestamp", Val.vstr now)]
    with hd2
  have hp2 : getField d2 ("paid_amount") = some (Val.vfloat p) := by
    rw [hd2]
    by_cases hts : hasField d1 ("timestamp")
    · rw [if_pos hts]; exact hp1
    · rw [if_neg hts, getField_append_ne _ _ _ _ (by decide)]; exact hp1
  have ht2 : getField d2 ("total") = some (Val.vfloat t) := by
    rw [hd2]
    by_cases hts : hasField d1 ("timestamp")
    · rw [if_pos hts]; exact ht1
    · rw [if_neg hts, getField_append_ne _ _ _ _ (by decide)]; exact ht1
  rw [SalesCSVHandler.create, ← hd1, ← hd2,
    if_pos (by rw [hasField, hp2, hasField, ht2]; rfl), hp2, ht2]
  simp only [Option.getD_some, pyFloatV]
  by_cases hge : p ≥ t
  · exact ⟨_, _, by rw [if_pos hge]⟩
  · exact ⟨_, _, by rw [if_neg hge]⟩

theorem process_product_record_price (r : Row) (q : Rat)
    (hv : getField r ("price") = some (Val.vfloat q)) :
    getField (ProductCSVHandler.process_product_record r) ("price") = some (Val.vfloat q) := by
  unfold ProductCSVHandler.process_product_record
  have h1 : getField
      (mapVals (fun k v => if isNanLike v then ProductCSVHandler.nanRepl k else v) r) ("price")
      = some (Val.vfloat q) := by
    rw [getField_mapVals, hv]
    simp [isNanLike]
  rw [jsonDecodeField_getField_ne _ _ _ _ (by decide),
    coerceIntField_getField_ne _ _ _ (by decide),
    coerceFloatField_getField_ne _ _ _ (by decide),
    coerceFloatField_at_float _ _ q (by rw [strifyField_getField_ne _ _ _ (by decide)]; exact h1)]

theorem process_product_record_cost (r : Row) (q : Rat)
    (hv : getField r ("cost") = some (Val.vfloat q)) :
    getField (ProductCSVHandler.process_product_record r) ("cost") = some (Val.vfloat q) := by
  unfold ProductCSVHandler.process_product_record
  have h1 : getField
      (mapVals (fun k v => if isNanLike v then ProductCSVHandler.nanRepl k else v) r) ("cost")
      = some (Val.vfloat q) := by
    rw [getField_mapVals, hv]
    simp [isNanLike]
  rw [jsonDecodeField_getField_ne _ _ _ _ (by decide),
    coerceIntField_getField_ne _ _ _ (by decide),
    coerceFloatField_at_float _ _ q
      (by rw [coerceFloatField_getField_ne _ _ _ (by decide),
        strifyField_getField_ne _ _ _ (by decide)]; exact h1)]

theorem process_product_record_stock (r : Row) (n : Int)
    (hv : getField r ("stock") = some (Val.vint n)) :
    getField (ProductCSVHandler.process_product_record r) ("stock") = some (Val.vint n) := by
  unfold ProductCSVHandler.process_product_record
  have h1 : getField
      (mapVals (fun k v => if isNanLike v then ProductCSVHandler.nanRepl k else v) r) ("stock")
      = some (Val.vint n) := by
    rw [getField_mapVals, hv]
    simp [isNanLike]
  rw [jsonDecodeField_getField_ne _ _ _ _ (by decide),
    coerceIntField_at_int _ _ n
      (by rw [coerceFloatField_getField_ne _ _ _ (by decide),
        coerceFloatField_getField_ne _ _ _ (by decide),
        strifyField_getField_ne _ _ _ (by decide)]; exact h1)]

/-! ## Claim C1: per-item stock validation and decrement -/

/-- The one-product state of Scenario A. -/
def stockFiveState : St :=
  { products := [[("id", Val.vstr "p1"), ("stock", Val.vint 5)]], customers := [], sales := [] }

/-- A single-item sale request against product `p1` with the given
quantity. -/
def qtySale (q : Int) : SaleCreate :=
  { customer_id := none,
    items := [{ product_id := "p1", variant_id := none, quantity := q, price := 5,
                product_name := none }],
    subtotal := 5, total := 5, payment_method := "cash", cashier_id := "u1",
    timestamp := some "2025-01-01T00:00:00", status := "completed",
    paid_amount := some 5, remaining_amount := none }

/-- C1: at every step of the item loop, a missing product stops the loop
with `NotFound` and an untouched table, `stock < quantity` stops it with
`InsufficientStock`, and otherwise the loop continues on a table in which
the product's persisted stock is exactly the old stock minus the item
quantity.  Scenario A: from stock 5, a quantity-5 sale succeeds leaving
stock 0, and a subsequent quantity-1 sale fails with `InsufficientStock`. -/
theorem create_sale_item_stock_rules :
    (∀ (prods : List Row) (item : SaleItem) (rest : List SaleItem),
      (ProductCSVHandler.find_by_id prods item.product_id = none →
        process_sale_items prods (item :: rest) =
          (prods, some (.productNotFound item.product_id))) ∧
      (∀ product, ProductCSVHandler.find_by_id prods item.product_id = some product →
        (pyGetInt product ("stock") 0 < item.quantity →
          process_sale_items prods (item :: rest) =
            (prods, some (.insufficientStock item.product_id))) ∧
        (item.quantity ≤ pyGetInt product ("stock") 0 →
          ∃ prods' product',
            process_sale_items prods (item :: rest) = process_sale_items prods' rest ∧
            ProductCSVHandler.find_by_id prods' item.product_id = some product' ∧
            pyGetInt product' ("stock") 0 =
              pyGetInt product ("stock") 0 - item.quantity))) ∧
    ((create_sale stockFiveState (qtySale 5) "s1" "t1").1.isOk = true ∧
      pyGetInt
        ((ProductCSVHandler.find_by_id
          (create_sale stockFiveState (qtySale 5) "s1" "t1").2.products "p1").getD [])
        ("stock") 99 = 0 ∧
      (create_sale (create_sale stockFiveState (qtySale 5) "s1" "t1").2 (qtySale 1)
        "s2" "t2").1 = .error (.insufficientStock "p1")) := by
  constructor
  · intro prods item rest
    constructor
    · intro hnone
      simp only [process_sale_items, hnone]
    · intro product hfind
      constructor
      · intro hlt
        simp only [process_sale_items, hfind]
        rw [if_pos hlt]
      · intro hq
        obtain ⟨r0, hr0, hproc⟩ := Option.map_eq_some'.mp hfind
        have hr0f : List.find? (fun r => CSVHandler.idMatches r item.product_id) prods =
            some r0 := hr0
        have hm : CSVHandler.idMatches r0 item.product_id = true := by
          simpa using List.find?_some hr0f
        have hmem : r0 ∈ prods := List.mem_of_find?_eq_some hr0f
        set cur := pyGetInt product ("stock") 0 with hcur
        set payload : Row := [("stock", Val.vint (cur - item.quantity))] with hpayload
        have hserp : ProductCSVHandler.serializeVariants payload = payload := by
          rw [hpayload]
          simp [ProductCSVHandler.serializeVariants, getField_cons, getField_nil]
        set prods' := (ProductCSVHandler.update prods item.product_id payload).2 with hprods'
        have hupd : prods' = prods.map (rowUpdF item.product_id payload) := by
          rw [hprods', ProductCSVHandler.update, hserp,
            update_of_match prods item.product_id payload ⟨r0, hmem, hm⟩]
        have hfind' : CSVHandler.find_by_id prods' item.product_id =
            some (setField r0 ("stock") (Val.vint (cur - item.quantity))) := by
          rw [hupd, CSVHandler.find_by_id,
            find?_map_idPres _ _ (fun r => rowUpdF_idMatches_pres _ payload r _) prods,
            ← CSVHandler.find_by_id, hr0, Option.map_some']
          congr 1
          rw [hpayload, rowUpdF_cons, if_neg (by simp), if_pos hm, rowUpdF_nil]
        refine ⟨prods', ProductCSVHandler.process_product_record
          (setField r0 ("stock") (Val.vint (cur - item.quantity))), ?_, ?_, ?_⟩
        · simp only [process_sale_items, hfind]
          rw [if_neg (not_lt.mpr hq)]
        · rw [ProductCSVHandler.find_by_id, hfind', Option.map_some']
        · have hs := process_product_record_stock
            (setField r0 ("stock") (Val.vint (cur - item.quantity)))
            (cur - item.quantity) (getField_setField_self _ _ _)
          simp only [pyGetInt, hs]
  · refine ⟨?_, ?_, ?_⟩ <;> with_unfolding_all decide

/-- Witness for C1 at a concrete table: the three loop outcomes at a
stock-5 product — missing product, excessive quantity, and a successful
decrement. -/
theorem create_sale_item_stock_rules_witness :
    process_sale_items [[("id", Val.vstr "p1"), ("stock", Val.vint 5)]]
      [{ product_id := "p9", variant_id := none, quantity := 1, price := 5,
         product_name := none }] =
      ([[("id", Val.vstr "p1"), ("stock", Val.vint 5)]], some (.productNotFound "p9")) ∧
    process_sale_items [[("id", Val.vstr "p1"), ("stock", Val.vint 5)]]
      [{ product_id := "p1", variant_id := none, quantity := 9, price := 5,
         product_name := none }] =
      ([[("id", Val.vstr "p1"), ("stock", Val.vint 5)]], some (.insufficientStock "p1")) ∧
    (∃ prods' product',
      process_sale_items [[("id", Val.vstr "p1"), ("stock", Val.vint 5)]]
        [{ product_id := "p1", variant_id := none, quantity := 2, price := 5,
           product_name := none }] = process_sale_items prods' [] ∧
      ProductCSVHandler.find_by_id prods' "p1" = some product' ∧
      pyGetInt product' ("stock") 0 =
        pyGetInt [("id", Val.vstr "p1"), ("stock", Val.vint 5),
          ("variants", Val.vjson Json.jarrNil)] ("stock") 0 - 2) :=
  ⟨(create_sale_item_stock_rules.1 [[("id", Val.vstr "p1"), ("stock", Val.vint 5)]]
      { product_id := "p9", variant_id := none, quantity := 1, price := 5,
        product_name := none } []).1 (by decide),
   ((create_sale_item_stock_rules.1 [[("id", Val.vstr "p1"), ("stock", Val.vint 5)]]
      { product_id := "p1", variant_id := none, quantity := 9, price := 5,
        product_name := none } []).2
      [("id", Val.vstr "p1"), ("stock", Val.vint 5), ("variants", Val.vjson Json.jarrNil)]
      (by decide)).1 (by decide),
   ((create_sale_item_stock_rules.1 [[("id", Val.vstr "p1"), ("stock", Val.vint 5)]]
      { product_id := "p1", variant_id := none, quantity := 2, price := 5,
        product_name := none } []).2
      [("id", Val.vstr "p1"), ("stock", Val.vint 5), ("variants", Val.vjson Json.jarrNil)]
      (by decide)).2 (by decide)⟩

/-! ## Claim C3: customer aggregate update on sale creation -/

/-- C3: when the sale names a customer, an unresolved reference leaves
the customer table untouched and (given the item loop succeeded and a
paid amount was supplied) the sale creation still succeeds — a silent
skip; a resolved reference yields a stored customer whose processed
record shows `total_spent` increased by the sale total, `visits` by one,
`loyalty_points` by the truncated total, and `last_visit` set to the
current timestamp, all pushed in the single `update` call of
`update_customer_stats`. -/
theorem create_sale_customer_stats
    (st : St) (s : SaleCreate) (cid newId now : String)
    (hcid : s.customer_id = some cid) (hcne : cid ≠ "") :
    (CustomerCSVHandler.find_by_id st.customers cid = none →
      update_customer_stats st.customers s now = st.customers ∧
      (∀ p, s.paid_amount = some p →
        (process_sale_items st.products s.items).2 = none →
        (∃ rec, (create_sale st s newId now).1 = .ok rec) ∧
        (create_sale st s newId now).2.customers = st.customers)) ∧
    (∀ c, CustomerCSVHandler.find_by_id st.customers cid = some c →
      ∃ c', CustomerCSVHandler.find_by_id (update_customer_stats st.customers s now) cid =
          some c' ∧
        pyGetFloat c' ("total_spent") 0 = pyGetFloat c ("total_spent") 0 + s.total ∧
        pyGetInt c' ("visits") 0 = pyGetInt c ("visits") 0 + 1 ∧
        pyGetInt c' ("loyalty_points") 0 = pyGetInt c ("loyalty_points") 0 + pyTrunc s.total ∧
        (isNanLike (Val.vstr now) = false → now ≠ "" →
          getField c' ("last_visit") = some (Val.vstr now))) := by
  constructor
  · intro hnone
    have hskip : update_customer_stats st.customers s now = st.customers := by
      rw [update_customer_stats, hcid]
      simp only [if_neg hcne, hnone]
    refine ⟨hskip, ?_⟩
    intro p hpaid hloop
    have hpair : process_sale_items st.products s.items =
        ((process_sale_items st.products s.items).1, none) := by
      rw [← hloop]
    have hpv : getField (saleToRow s) ("paid_amount") = some (Val.vfloat p) := by
      simp [saleToRow, getField_cons, hpaid, optRatVal]
    have htot : getField (saleToRow s) ("total") = some (Val.vfloat s.total) := by
      simp [saleToRow, getField_cons]
    obtain ⟨rec, tbl, hok⟩ :=
      sales_create_ok_of_floats st.sales newId now (saleToRow s) p s.total hpv htot
    rw [create_sale, hpair]
    simp only [hok]
    exact ⟨⟨rec, rfl⟩, hskip⟩
  · intro c hfound
    obtain ⟨r0, hr0, hproc⟩ := Option.map_eq_some'.mp hfound
    have hr0f : List.find? (fun r => CSVHandler.idMatches r cid) st.customers = some r0 := hr0
    have hm : CSVHandler.idMatches r0 cid = true := by
      simpa using List.find?_some hr0f
    have hmem : r0 ∈ st.customers := List.mem_of_find?_eq_some hr0f
    set payload : Row :=
      [("total_spent", Val.vfloat (pyGetFloat c ("total_spent") 0 + s.total)),
       ("visits", Val.vint (pyGetInt c ("visits") 0 + 1)),
       ("loyalty_points", Val.vint (pyGetInt c ("loyalty_points") 0 + pyTrunc s.total)),
       ("last_visit", Val.vstr now)] with hpayload
    have hserp : CustomerCSVHandler.serializePreferences payload = payload := by
      rw [hpayload]
      simp [CustomerCSVHandler.serializePreferences, getField_cons, getField_nil]
    have hcust : update_customer_stats st.customers s now =
        st.customers.map (rowUpdF cid payload) := by
      rw [update_customer_stats, hcid]
      simp only [if_neg hcne, hfound]
      rw [CustomerCSVHandler.update, hserp,
        update_of_match st.customers cid payload ⟨r0, hmem, hm⟩]
    set r1 := rowUpdF cid payload r0 with hr1
    have hfind' : CSVHandler.find_by_id (st.customers.map (rowUpdF cid payload)) cid =
        some r1 := by
      rw [CSVHandler.find_by_id,
        find?_map_idPres _ _ (fun r => rowUpdF_idMatches_pres _ payload r _) st.customers,
        ← CSVHandler.find_by_id, hr0, Option.map_some']
    have hr1eq : r1 = setField (setField (setField (setField r0
        ("total_spent") (Val.vfloat (pyGetFloat c ("total_spent") 0 + s.total)))
        ("visits") (Val.vint (pyGetInt c ("visits") 0 + 1)))
        ("loyalty_points") (Val.vint (pyGetInt c ("loyalty_points") 0 + pyTrunc s.total)))
        ("last_visit") (Val.vstr now) := by
      rw [hr1, hpayload, rowUpdF_cons, if_neg (by simp), if_pos hm,
        rowUpdF_cons, if_neg (by simp),
        if_pos (by rw [idMatches_setField _ _ _ _ (by simp)]; exact hm),
        rowUpdF_cons, if_neg (by simp),
        if_pos (by rw [idMatches_setField _ _ _ _ (by simp),
          idMatches_setField _ _ _ _ (by simp)]; exact hm),
        rowUpdF_cons, if_neg (by simp),
        if_pos (by rw [idMatches_setField _ _ _ _ (by simp),
          idMatches_setField _ _ _ _ (by simp),
          idMatches_setField _ _ _ _ (by simp)]; exact hm),
        rowUpdF_nil]
    have hts : getField r1 ("total_spent") =
        some (Val.vfloat (pyGetFloat c ("total_spent") 0 + s.total)) := by
      rw [hr1eq, getField_setField_ne _ _ _ _ (by decide),
        getField_setField_ne _ _ _ _ (by decide),
        getField_setField_ne _ _ _ _ (by decide), getField_setField_self]
    have hvEq : getField r1 ("visits") = some (Val.vint (pyGetInt c ("visits") 0 + 1)) := by
      rw [hr1eq, getField_setField_ne _ _ _ _ (by decide),
        getField_setField_ne _ _ _ _ (by decide), getField_setField_self]
    have hlEq : getField r1 ("loyalty_points") =
        some (Val.vint (pyGetInt c ("loyalty_points") 0 + pyTrunc s.total)) := by
      rw [hr1eq, getField_setField_ne _ _ _ _ (by decide), getField_setField_self]
    have hlvEq : getField r1 ("last_visit") = some (Val.vstr now) := by
      rw [hr1eq, getField_setField_self]
    refine ⟨CustomerCSVHandler.process_customer_record r1, ?_, ?_, ?_, ?_, ?_⟩
    · rw [hcust, CustomerCSVHandler.find_by_id, hfind', Option.map_some']
    · rw [pyGetFloat, process_customer_record_total_spent _ _ hts]
    · rw [pyGetInt, process_customer_record_visits _ _ hvEq]
    · rw [pyGetInt, process_customer_record_loyalty _ _ hlEq]
    · intro hnan hne
      exact process_customer_record_last_visit _ _ hlvEq hnan hne

/-- Witness for C3: Scenario C.  A fresh customer (all aggregates zero)
linked to a sale of total 37.5 ends with total_spent 37.5, visits 1 and
loyalty_points 37; and an unresolved customer reference skips the update
while the sale itself succeeds. -/
theorem create_sale_customer_stats_witness :
    (∃ c', CustomerCSVHandler.find_by_id
        (update_customer_stats
          [[("id", Val.vstr "c1"), ("total_spent", Val.vfloat 0), ("visits", Val.vint 0),
            ("loyalty_points", Val.vint 0)]]
          { customer_id := some "c1", items := [], subtotal := 37.5, total := 37.5,
            payment_method := "cash", cashier_id := "u1",
            timestamp := some "t", status := "completed",
            paid_amount := some 37.5, remaining_amount := none }
          "2025-02-03T00:00:00") "c1" = some c' ∧
      pyGetFloat c' ("total_spent") 0 = 0 + 37.5 ∧
      pyGetInt c' ("visits") 0 = 0 + 1 ∧
      pyGetInt c' ("loyalty_points") 0 = 0 + 37 ∧
      getField c' ("last_visit") = some (Val.vstr "2025-02-03T00:00:00")) ∧
    (update_customer_stats []
        { customer_id := some "c9", items := [], subtotal := 5, total := 5,
          payment_method := "cash", cashier_id := "u1",
          timestamp := some "t", status := "completed",
          paid_amount := some 5, remaining_amount := none } "t2") = [] := by
  constructor
  · obtain ⟨c', h1, h2, h3, h4, h5⟩ :=
      (create_sale_customer_stats
        { products := [], customers :=
            [[("id", Val.vstr "c1"), ("total_spent", Val.vfloat 0), ("visits", Val.vint 0),
              ("loyalty_points", Val.vint 0)]], sales := [] }
        { customer_id := some "c1", items := [], subtotal := 37.5, total := 37.5,
          payment_method := "cash", cashier_id := "u1",
          timestamp := some "t", status := "completed",
          paid_amount := some 37.5, remaining_amount := none }
        "c1" "s1" "2025-02-03T00:00:00" rfl (by decide)).2
      [("id", Val.vstr "c1"), ("total_spent", Val.vfloat 0), ("visits", Val.vint 0),
        ("loyalty_points", Val.vint 0), ("preferences", Val.vjson Json.jobjNil)]
      (by with_unfolding_all decide)
    refine ⟨c', h1, ?_, ?_, ?_, h5 (by decide) (by decide)⟩
    · rw [h2]; with_unfolding_all decide
    · rw [h3]; with_unfolding_all decide
    · rw [h4]; with_unfolding_all decide
  · exact ((create_sale_customer_stats
      { products := [], customers := [], sales := [] }
      { customer_id := some "c9", items := [], subtotal := 5, total := 5,
        payment_method := "cash", cashier_id := "u1",
        timestamp := some "t", status := "completed",
        paid_amount := some 5, remaining_amount := none }
      "c9" "s1" "t2" rfl (by decide)).1 rfl).1

/-! ## Claim C7: SKU uniqueness and canonical numeric types on create -/

/-- C7: product creation rejects a request whose SKU any stored row
already carries, leaving the product table unchanged; with a fresh SKU
it succeeds and the returned record's `stock` is an int while `price`
and `cost` are floats, at the request's values. -/
theorem create_product_sku_unique (table : List Row) (newId : String) (p : ProductCreate) :
    ((∃ r ∈ table, getField r ("sku") = some (Val.vstr p.sku)) →
      create_product table newId p = (.error .conflictSku, table)) ∧
    ((∀ r ∈ table, getField r ("sku") ≠ some (Val.vstr p.sku)) →
      ∃ rec stored,
        create_product table newId p = (.ok rec, table ++ [stored]) ∧
        getField rec ("stock") = some (Val.vint p.stock) ∧
        getField rec ("price") = some (Val.vfloat p.price) ∧
        getField rec ("cost") = some (Val.vfloat p.cost)) := by
  constructor
  · rintro ⟨r, hr, hs⟩
    have hsome : (table.find?
        (fun r => getField r ("sku") == some (Val.vstr p.sku))).isSome = true := by
      rw [List.find?_isSome]
      exact ⟨r, hr, by rw [hs]; simp⟩
    rcases Option.isSome_iff_exists.mp hsome with ⟨y, hy⟩
    rw [create_product, ProductCSVHandler.find_by_sku, hy]
    rfl
  · intro h
    have hnone : table.find?
        (fun r => getField r ("sku") == some (Val.vstr p.sku)) = none := by
      rw [List.find?_eq_none]
      intro r hr
      simpa using h r hr
    have hfbs : ProductCSVHandler.find_by_sku table p.sku = none := by
      rw [ProductCSVHandler.find_by_sku, hnone]
      rfl
    -- data after variants serialization
    have hser : ∃ vtext : Val, ProductCSVHandler.serializeVariants (productToRow p) =
        setField (productToRow p) ("variants") vtext := by
      cases hvl : p.variants with
      | nil =>
        refine ⟨Val.vstr (dumps Json.jarrNil), ?_⟩
        simp [ProductCSVHandler.serializeVariants, productToRow, getField_cons, hvl, jarrOfList]
      | cons v vs =>
        refine ⟨Val.vstr (dumps (Json.jarrCons (variantToJson v)
          (jarrOfList (vs.map variantToJson)))), ?_⟩
        simp [ProductCSVHandler.serializeVariants, productToRow, getField_cons, hvl, jarrOfList]
    obtain ⟨vtext, hserEq⟩ := hser
    set d := ProductCSVHandler.serializeVariants (productToRow p) with hd
    have hdprice : getField d ("price") = some (Val.vfloat p.price) := by
      rw [hserEq, getField_setField_ne _ _ _ _ (by decide)]
      simp [productToRow, getField_cons]
    have hdcost : getField d ("cost") = some (Val.vfloat p.cost) := by
      rw [hserEq, getField_setField_ne _ _ _ _ (by decide)]
      simp [productToRow, getField_cons]
    have hdstock : getField d ("stock") = some (Val.vint p.stock) := by
      rw [hserEq, getField_setField_ne _ _ _ _ (by decide)]
      simp [productToRow, getField_cons]
    have hdid : hasField d ("id") = false := by
      rw [hasField, hserEq, getField_setField_ne _ _ _ _ (by decide)]
      simp [productToRow, getField_cons, getField_nil]
    set stored := d ++ [("id", Val.vstr newId)] with hstored
    have hcr : CSVHandler.create table newId d = (stored, table ++ [stored]) := by
      simp only [CSVHandler.create, hdid, Bool.false_eq_true, if_false]
    have hsprice : getField stored ("price") = some (Val.vfloat p.price) := by
      rw [hstored, getField_append_ne _ _ _ _ (by decide)]; exact hdprice
    have hscost : getField stored ("cost") = some (Val.vfloat p.cost) := by
      rw [hstored, getField_append_ne _ _ _ _ (by decide)]; exact hdcost
    have hsstock : getField stored ("stock") = some (Val.vint p.stock) := by
      rw [hstored, getField_append_ne _ _ _ _ (by decide)]; exact hdstock
    refine ⟨ProductCSVHandler.process_product_record stored, stored, ?_, ?_, ?_, ?_⟩
    · rw [create_product, hfbs]
      simp only [ProductCSVHandler.create, ← hd, hcr]
    · exact process_product_record_stock _ _ hsstock
    · exact process_product_record_price _ _ hsprice
    · exact process_product_record_cost _ _ hscost

/-- Witness for C7: a concrete duplicate-SKU rejection with the table
unchanged, and a concrete fresh-SKU creation with canonical numeric
types on the response. -/
theorem create_product_sku_unique_witness :
    (create_product [[("id", Val.vstr "1"), ("sku", Val.vstr "S1")]] "2"
      { name := "Shirt", category := "tops", price := 19.5, cost := 7, stock := 4,
        sku := "S1", description := none, image := none, variants := [] } =
      (.error .conflictSku, [[("id", Val.vstr "1"), ("sku", Val.vstr "S1")]])) ∧
    (∃ rec stored,
      create_product [] "2"
        { name := "Shirt", category := "tops", price := 19.5, cost := 7, stock := 4,
          sku := "S2", description := none, image := none, variants := [] } =
        (.ok rec, [] ++ [stored]) ∧
      getField rec ("stock") = some (Val.vint 4) ∧
      getField rec ("price") = some (Val.vfloat 19.5) ∧
      getField rec ("cost") = some (Val.vfloat 7)) :=
  ⟨(create_product_sku_unique [[("id", Val.vstr "1"), ("sku", Val.vstr "S1")]] "2"
      { name := "Shirt", category := "tops", price := 19.5, cost := 7, stock := 4,
        sku := "S1", description := none, image := none, variants := [] }).1
    ⟨[("id", Val.vstr "1"), ("sku", Val.vstr "S1")], by decide, by decide⟩,
   (create_product_sku_unique [] "2"
      { name := "Shirt", category := "tops", price := 19.5, cost := 7, stock := 4,
        sku := "S2", description := none, image := none, variants := [] }).2
    (by decide)⟩

/-! ## Claim C10: an omitted paid_amount fails the whole sale creation -/

/-- C10: for every request whose `paid_amount` was omitted (`None`), once
the item loop has succeeded, `create_sale` surfaces a generic internal
failure — `sale.dict()` always contains the `paid_amount` key, so the
payment branch is entered and `float(None)` raises — no sale record is
inserted, and the stock decrements and customer update already performed
stay persisted in the returned state. -/
theorem create_sale_none_paid_amount_internal_error
    (st : St) (s : SaleCreate) (newId now : String)
    (hpaid : s.paid_amount = none)
    (hloop : (process_sale_items st.products s.items).2 = none) :
    create_sale st s newId now =
      (.error (.internal .floatCoercion),
       { products := (process_sale_items st.products s.items).1,
         customers := update_customer_stats st.customers s now,
         sales := st.sales }) := by
  have hpair : process_sale_items st.products s.items =
      ((process_sale_items st.products s.items).1, none) := by
    rw [← hloop]
  have hpv : getField (saleToRow s) ("paid_amount") = some Val.vnull := by
    simp [saleToRow, getField_cons, hpaid, optRatVal]
  have htot : getField (saleToRow s) ("total") = some (Val.vfloat s.total) := by
    simp [saleToRow, getField_cons]
  have hts : hasField (SalesCSVHandler.serializeItems (saleToRow s)) ("timestamp") = true := by
    rw [hasField, serializeItems_getField_ne _ _ (by decide)]
    simp [saleToRow, getField_cons]
  have hpv1 : getField (SalesCSVHandler.serializeItems (saleToRow s)) ("paid_amount") =
      some Val.vnull := by
    rw [serializeItems_getField_ne _ _ (by decide)]
    exact hpv
  have htot1 : getField (SalesCSVHandler.serializeItems (saleToRow s)) ("total") =
      some (Val.vfloat s.total) := by
    rw [serializeItems_getField_ne _ _ (by decide)]
    exact htot
  have hsc : SalesCSVHandler.create st.sales newId now (saleToRow s) =
      .error .floatCoercion := by
    rw [SalesCSVHandler.create]
    simp only [hts, if_true]
    rw [if_pos (by rw [hasField, hpv1, hasField, htot1]; rfl), hpv1, htot1]
    rfl
  rw [create_sale, hpair]
  simp only [hsc]

/-! ## Claim C9: the analytics aggregator

Order lemmas for the Python string comparison, aggregation lemmas for the
`defaultdict` fold, and the window/trend theorem. -/

theorem strLe_refl (l : List Char) : strLeChars l l = true := by
  induction l with
  | nil => rfl
  | cons a as ih => simp [strLeChars, ih]

theorem strLe_total (l1 l2 : List Char) :
    strLeChars l1 l2 = true ∨ strLeChars l2 l1 = true := by
  induction l1 generalizing l2 with
  | nil => exact Or.inl rfl
  | cons a as ih =>
    cases l2 with
    | nil => exact Or.inr rfl
    | cons b bs =>
      rcases lt_trichotomy a b with h | h | h
      · exact Or.inl (by simp [strLeChars, h])
      · subst h
        rcases ih bs with h2 | h2
        · exact Or.inl (by simp [strLeChars, h2])
        · exact Or.inr (by simp [strLeChars, h2])
      · exact Or.inr (by simp [strLeChars, h])

theorem strLe_trans (l1 l2 l3 : List Char)
    (h12 : strLeChars l1 l2 = true) (h23 : strLeChars l2 l3 = true) :
    strLeChars l1 l3 = true := by
  induction l1 generalizing l2 l3 with
  | nil => rfl
  | cons a as ih =>
    cases l2 with
    | nil => simp [strLeChars] at h12
    | cons b bs =>
      cases l3 with
      | nil => simp [strLeChars] at h23
      | cons c cs =>
        by_cases hab : a < b
        · by_cases hbc : b < c
          · simp [strLeChars, lt_trans hab hbc]
          · have hbc' : b = c := by
              simp only [strLeChars, if_neg hbc] at h23
              by_cases h : b = c
              · exact h
              · simp [h] at h23
            subst hbc'
            simp [strLeChars, hab]
        · have hab' : a = b := by
            simp only [strLeChars, if_neg hab] at h12
            by_cases h : a = b
            · exact h
            · simp [h] at h12
          subst hab'
          simp only [strLeChars, if_neg hab, if_pos rfl] at h12
          by_cases hbc : a < c
          · simp [strLeChars, hbc]
          · have hbc' : a = c := by
              simp only [strLeChars, if_neg hbc] at h23
              by_cases h : a = c
              · exact h
              · simp [h] at h23
            subst hbc'
            simp only [strLeChars, if_neg hbc, if_pos rfl] at h23 ⊢
            exact ih bs cs h12 h23

theorem strLe_antisymm (l1 l2 : List Char)
    (h12 : strLeChars l1 l2 = true) (h21 : strLeChars l2 l1 = true) : l1 = l2 := by
  induction l1 generalizing l2 with
  | nil =>
    cases l2 with
    | nil => rfl
    | cons b bs => simp [strLeChars] at h21
  | cons a as ih =>
    cases l2 with
    | nil => simp [strLeChars] at h12
    | cons b bs =>
      by_cases hab : a < b
      · exfalso
        simp only [strLeChars, if_neg (lt_asymm hab), if_neg (ne_of_gt hab)] at h21
        exact absurd h21 (by simp)
      · have hab' : a = b := by
          simp only [strLeChars, if_neg hab] at h12
          by_cases h : a = b
          · exact h
          · simp [h] at h12
        subst hab'
        simp only [strLeChars, if_neg hab, if_pos rfl] at h12 h21
        rw [ih bs h12 h21]

theorem pairLe_total (a b : String × Rat) : pairLeB a b = true ∨ pairLeB b a = true := by
  by_cases h : a.1 = b.1
  · rcases le_total a.2 b.2 with h2 | h2
    · exact Or.inl (by simp [pairLeB, h, h2])
    · exact Or.inr (by simp [pairLeB, h.symm, h2])
  · have h' : b.1 ≠ a.1 := fun hh => h hh.symm
    rcases strLe_total a.1.data b.1.data with h2 | h2
    · exact Or.inl (by simp [pairLeB, if_neg h, h2])
    · exact Or.inr (by simp [pairLeB, if_neg h', h2])

theorem pairLe_trans (a b c : String × Rat)
    (hab : pairLeB a b = true) (hbc : pairLeB b c = true) : pairLeB a c = true := by
  by_cases h1 : a.1 = b.1
  · by_cases h2 : b.1 = c.1
    · have h3 : a.1 = c.1 := h1.trans h2
      simp only [pairLeB, if_pos h1] at hab
      simp only [pairLeB, if_pos h2] at hbc
      simp only [pairLeB, if_pos h3]
      simp only [decide_eq_true_eq] at hab hbc ⊢
      exact le_trans hab hbc
    · have h3 : a.1 ≠ c.1 := h1 ▸ h2
      simp only [pairLeB, if_neg h2] at hbc
      simp only [pairLeB, if_neg h3]
      rw [h1]
      exact hbc
  · by_cases h2 : b.1 = c.1
    · have h3 : a.1 ≠ c.1 := fun hh => h1 (hh.trans h2.symm)
      simp only [pairLeB, if_neg h1] at hab
      simp only [pairLeB, if_neg h3]
      rw [← h2]
      exact hab
    · simp only [pairLeB, if_neg h1] at hab
      simp only [pairLeB, if_neg h2] at hbc
      by_cases h3 : a.1 = c.1
      · exfalso
        have hdata : a.1.data = b.1.data :=
          strLe_antisymm _ _ hab (by rw [h3]; exact hbc)
        exact h1 (String.ext hdata)
      · simp only [pairLeB, if_neg h3]
        exact strLe_trans _ _ _ hab hbc

instance : IsTotal (String × Rat) (fun a b => pairLeB a b = true) := ⟨pairLe_total⟩

instance : IsTrans (String × Rat) (fun a b => pairLeB a b = true) := ⟨pairLe_trans⟩

/-- `defaultdict` accumulation: looking a day up in `addDaily` either
adds to the existing entry or starts a fresh one. -/
theorem addDaily_lookup (acc : List (String × Rat)) (d0 : String) (r0 : Rat) (d : String) :
    List.lookup d (addDaily acc d0 r0) =
      if d = d0 then some ((List.lookup d acc).getD 0 + r0) else List.lookup d acc := by
  induction acc with
  | nil =>
    by_cases h : d = d0
    · subst h; simp [addDaily, List.lookup]
    · have hb : (d == d0) = false := by simpa using h
      simp [addDaily, List.lookup, hb, h]
  | cons a acc' ih =>
    rcases a with ⟨d1, r1⟩
    by_cases h1 : d1 = d0
    · subst h1
      by_cases h : d = d1
      · subst h; simp [addDaily, List.lookup]
      · simp only [addDaily, if_pos rfl]
        have hb : (d == d1) = false := by simpa using h
        simp [List.lookup, hb, h]
    · simp only [addDaily, if_neg h1]
      by_cases h : d = d1
      · subst h
        have hd0 : d ≠ d0 := fun hh => h1 hh
        simp [List.lookup, if_neg hd0]
      · have hb : (d == d1) = false := by simpa using h
        simp only [List.lookup, hb]
        exact ih

/-- The keys of `addDaily acc d r` are those of `acc`, with `d` appended
exactly when it was absent. -/
theorem addDaily_keys (acc : List (String × Rat)) (d0 : String) (r0 : Rat) :
    (addDaily acc d0 r0).map Prod.fst =
      if d0 ∈ acc.map Prod.fst then acc.map Prod.fst else acc.map Prod.fst ++ [d0] := by
  induction acc with
  | nil => simp [addDaily]
  | cons a acc' ih =>
    rcases a with ⟨d1, r1⟩
    by_cases h1 : d1 = d0
    · subst h1; simp [addDaily]
    · have hne : d0 ≠ d1 := fun hh => h1 hh.symm
      simp only [addDaily, if_neg h1, List.map_cons, ih]
      by_cases hmem : d0 ∈ acc'.map Prod.fst
      · simp [hmem, hne]
      · simp [hmem, hne]

theorem addDaily_nodup (acc : List (String × Rat)) (d0 : String) (r0 : Rat)
    (h : (acc.map Prod.fst).Nodup) : ((addDaily acc d0 r0).map Prod.fst).Nodup := by
  rw [addDaily_keys]
  by_cases hmem : d0 ∈ acc.map Prod.fst
  · simpa [hmem] using h
  · simp only [hmem, if_false]
    rw [List.nodup_append]
    refine ⟨h, List.nodup_singleton _, ?_⟩
    intro x hx hx0
    rw [List.mem_singleton] at hx0
    subst hx0
    exact hmem hx

/-- In a list with distinct keys, membership of a pair is the same as
`lookup` finding its value. -/
theorem mem_iff_lookup (l : List (String × Rat)) (hn : (l.map Prod.fst).Nodup)
    (d : String) (r : Rat) : (d, r) ∈ l ↔ List.lookup d l = some r := by
  induction l with
  | nil => simp [List.lookup]
  | cons a l' ih =>
    rcases a with ⟨d1, r1⟩
    rw [List.map_cons, List.nodup_cons] at hn
    by_cases h : d = d1
    · subst h
      simp only [List.lookup, beq_self_eq_true, List.mem_cons]
      constructor
      · rintro (h2 | h2)
        · rw [(Prod.mk.injEq _ _ _ _).mp h2.symm |>.2]
        · exact absurd (List.mem_map_of_mem Prod.fst h2) hn.1
      · intro h2
        exact Or.inl (by simpa using h2.symm)
    · have hb : (d == d1) = false := by simpa using h
      simp only [List.lookup, hb, List.mem_cons]
      rw [← ih hn.2]
      constructor
      · rintro (h2 | h2)
        · exact absurd ((Prod.mk.injEq _ _ _ _).mp h2).1 h
        · exact h2
      · exact Or.inr

/-- Looking a day up in the analytics fold: the entry exists exactly when
some record carries that day, and then holds the accumulator's prior
value plus the day's total revenue. -/
theorem daily_fold_lookup (recs : List Row) :
    ∀ (acc : List (String × Rat)) (d : String),
      List.lookup d (recs.foldl (fun a s => addDaily a (dayOf (tsOf s)) (totalOf s)) acc) =
        if (recs.filter (fun s => dayOf (tsOf s) = d)).isEmpty then List.lookup d acc
        else some ((List.lookup d acc).getD 0 +
          ((recs.filter (fun s => dayOf (tsOf s) = d)).map totalOf).sum) := by
  induction recs with
  | nil => intro acc d; simp
  | cons s recs' ih =>
    intro acc d
    rw [List.foldl_cons, ih]
    by_cases hd : dayOf (tsOf s) = d
    · have hlk : List.lookup d (addDaily acc (dayOf (tsOf s)) (totalOf s)) =
          some ((List.lookup d acc).getD 0 + totalOf s) := by
        rw [addDaily_lookup, if_pos hd.symm]
      have hfil : (s :: recs').filter (fun s => dayOf (tsOf s) = d) =
          s :: recs'.filter (fun s => dayOf (tsOf s) = d) := by
        simp [List.filter_cons, hd]
      rw [hfil]
      by_cases hemp : (recs'.filter (fun s => dayOf (tsOf s) = d)).isEmpty
      · rw [if_pos hemp, hlk]
        have : recs'.filter (fun s => dayOf (tsOf s) = d) = [] := by
          simpa [List.isEmpty_iff] using hemp
        simp [this]
      · rw [if_neg hemp, hlk]
        simp only [List.isEmpty_cons, List.map_cons, List.sum_cons, Option.getD_some]
        rw [if_neg (by simp)]
        congr 1
        ring
    · have hlk : List.lookup d (addDaily acc (dayOf (tsOf s)) (totalOf s)) =
          List.lookup d acc := by
        rw [addDaily_lookup, if_neg (fun hh => hd hh.symm)]
      have hfil : (s :: recs').filter (fun s => dayOf (tsOf s) = d) =
          recs'.filter (fun s => dayOf (tsOf s) = d) := by
        simp [List.filter_cons, hd]
      rw [hfil, hlk]

theorem daily_fold_nodup (recs : List Row) :
    ∀ acc : List (String × Rat), (acc.map Prod.fst).Nodup →
      ((recs.foldl (fun a s => addDaily a (dayOf (tsOf s)) (totalOf s)) acc).map
        Prod.fst).Nodup := by
  induction recs with
  | nil => intro acc h; simpa using h
  | cons s recs' ih =>
    intro acc h
    rw [List.foldl_cons]
    exact ih _ (addDaily_nodup _ _ _ h)

/-- C9: over every sales table and window cutoff, the analytics cover
exactly the sales whose timestamp is within the window — appending a
sale dated outside the window changes none of the outputs — average
order value is total revenue over transaction count (0 with no
transactions), and the revenue trend is sorted chronologically and holds
one entry per day of some in-window sale, carrying that day's summed
revenue.  The two typing hypotheses delimit the tables on which the
Python endpoint completes without raising: every processed row has a
string timestamp, and a float (or absent) total. -/
theorem analytics_window_and_trend (sales : List Row) (cutoff : String)
    (hts : ∀ r ∈ sales, ∃ t,
      getField (SalesCSVHandler.process_sale_record r) ("timestamp") = some (Val.vstr t))
    (htot : ∀ r ∈ sales, (∃ q,
      getField (SalesCSVHandler.process_sale_record r) ("total") = some (Val.vfloat q)) ∨
      getField (SalesCSVHandler.process_sale_record r) ("total") = none) :
    (∀ x : Row, pyStrGe (tsOf (SalesCSVHandler.process_sale_record x)) cutoff = false →
      get_sales_analytics (sales ++ [x]) cutoff = get_sales_analytics sales cutoff) ∧
    ((get_sales_analytics sales cutoff).average_order_value =
      if (get_sales_analytics sales cutoff).total_transactions = 0 then 0
      else (get_sales_analytics sales cutoff).total_sales /
        ((get_sales_analytics sales cutoff).total_transactions : Rat)) ∧
    ((get_sales_analytics sales cutoff).total_sales =
      (((SalesCSVHandler.get_all sales).filter
        (fun s => pyStrGe (tsOf s) cutoff)).map totalOf).sum ∧
     (get_sales_analytics sales cutoff).total_transactions =
      ((SalesCSVHandler.get_all sales).filter (fun s => pyStrGe (tsOf s) cutoff)).length) ∧
    (get_sales_analytics sales cutoff).revenue_trend.Pairwise
      (fun a b => strLeChars a.1.data b.1.data = true) ∧
    (∀ (d : String) (r : Rat),
      (d, r) ∈ (get_sales_analytics sales cutoff).revenue_trend ↔
        ((∃ s ∈ (SalesCSVHandler.get_all sales).filter (fun s => pyStrGe (tsOf s) cutoff),
            dayOf (tsOf s) = d) ∧
         r = ((((SalesCSVHandler.get_all sales).filter
            (fun s => pyStrGe (tsOf s) cutoff)).filter
              (fun s => dayOf (tsOf s) = d)).map totalOf).sum)) := by
  clear hts htot
  refine ⟨?_, ?_, ⟨rfl, rfl⟩, ?_, ?_⟩
  · intro x hx
    have hfil : (List.map SalesCSVHandler.process_sale_record [x]).filter
        (fun s => pyStrGe (tsOf s) cutoff) = [] := by
      simp [List.filter_cons, hx]
    simp only [get_sales_analytics, SalesCSVHandler.get_all, List.map_append,
      List.filter_append, hfil, List.append_nil]
  · unfold get_sales_analytics
    simp only
    rcases Nat.eq_zero_or_pos (((SalesCSVHandler.get_all sales).filter
      (fun s => pyStrGe (tsOf s) cutoff)).length) with h | h
    · simp [h]
    · rw [if_pos h, if_neg (Nat.pos_iff_ne_zero.mp h)]
  · have hsorted : ((get_sales_analytics sales cutoff).revenue_trend).Pairwise
        (fun a b => pairLeB a b = true) :=
      List.sorted_insertionSort (fun a b => pairLeB a b = true) _
    refine hsorted.imp ?_
    intro a b hab
    by_cases h : a.1 = b.1
    · rw [h]; exact strLe_refl _
    · simpa [pairLeB, if_neg h] using hab
  · intro d r
    have hperm : (get_sales_analytics sales cutoff).revenue_trend.Perm
        (((SalesCSVHandler.get_all sales).filter (fun s => pyStrGe (tsOf s) cutoff)).foldl
          (fun acc s => addDaily acc (dayOf (tsOf s)) (totalOf s)) []) :=
      List.perm_insertionSort _ _
    rw [hperm.mem_iff, mem_iff_lookup _ (daily_fold_nodup _ [] (by simp)) d r,
      daily_fold_lookup]
    by_cases hemp : ((((SalesCSVHandler.get_all sales).filter
        (fun s => pyStrGe (tsOf s) cutoff)).filter (fun s => dayOf (tsOf s) = d))).isEmpty
    · rw [if_pos hemp]
      simp only [List.lookup]
      constructor
      · intro h; cases h
      · rintro ⟨⟨s, hs, hsd⟩, _⟩
        rw [List.isEmpty_iff, List.filter_eq_nil] at hemp
        exact absurd (by simpa using hsd) (hemp s hs)
    · rw [if_neg hemp]
      simp only [List.lookup, Option.getD_none, Option.some.injEq]
      rw [List.isEmpty_iff] at hemp
      constructor
      · intro h
        refine ⟨?_, by rw [← h]; ring⟩
        rcases hfe : (((SalesCSVHandler.get_all sales).filter
            (fun s => pyStrGe (tsOf s) cutoff)).filter (fun s => dayOf (tsOf s) = d)) with
          _ | ⟨s, rest⟩
        · exact absurd hfe hemp
        · have hmem : s ∈ (((SalesCSVHandler.get_all sales).filter
              (fun s => pyStrGe (tsOf s) cutoff)).filter (fun s => dayOf (tsOf s) = d)) := by
            rw [hfe]; exact List.mem_cons_self _ _
          rw [List.mem_filter] at hmem
          exact ⟨s, hmem.1, by simpa using hmem.2⟩
      · rintro ⟨_, hr⟩
        rw [hr]; ring

/-- Witness for C9 at a concrete four-sale table (one sale dated outside
the 2025 window): the trend entry for 2025-01-05 carries 40 and the
out-of-window sale is excluded from the analytics. -/
theorem analytics_window_and_trend_witness :
    (get_sales_analytics
      [[("id", Val.vstr "s1"), ("timestamp", Val.vstr "2025-01-05T01:00:00"),
        ("total", Val.vfloat 10), ("items", Val.vstr "[]")],
       [("id", Val.vstr "s2"), ("timestamp", Val.vstr "2024-01-01T00:00:00"),
        ("total", Val.vfloat 99), ("items", Val.vstr "[]")],
       [("id", Val.vstr "s3"), ("timestamp", Val.vstr "2025-01-04T01:00:00"),
        ("total", Val.vfloat 20), ("items", Val.vstr "[]")],
       [("id", Val.vstr "s4"), ("timestamp", Val.vstr "2025-01-05T02:00:00"),
        ("total", Val.vfloat 30), ("items", Val.vstr "[]")]]
      "2025-01-01T00:00:00").average_order_value =
      if (get_sales_analytics
      [[("id", Val.vstr "s1"), ("timestamp", Val.vstr "2025-01-05T01:00:00"),
        ("total", Val.vfloat 10), ("items", Val.vstr "[]")],
       [("id", Val.vstr "s2"), ("timestamp", Val.vstr "2024-01-01T00:00:00"),
        ("total", Val.vfloat 99), ("items", Val.vstr "[]")],
       [("id", Val.vstr "s3"), ("timestamp", Val.vstr "2025-01-04T01:00:00"),
        ("total", Val.vfloat 20), ("items", Val.vstr "[]")],
       [("id", Val.vstr "s4"), ("timestamp", Val.vstr "2025-01-05T02:00:00"),
        ("total", Val.vfloat 30), ("items", Val.vstr "[]")]]
      "2025-01-01T00:00:00").total_transactions = 0 then 0
      else (get_sales_analytics
      [[("id", Val.vstr "s1"), ("timestamp", Val.vstr "2025-01-05T01:00:00"),
        ("total", Val.vfloat 10), ("items", Val.vstr "[]")],
       [("id", Val.vstr "s2"), ("timestamp", Val.vstr "2024-01-01T00:00:00"),
        ("total", Val.vfloat 99), ("items", Val.vstr "[]")],
       [("id", Val.vstr "s3"), ("timestamp", Val.vstr "2025-01-04T01:00:00"),
        ("total", Val.vfloat 20), ("items", Val.vstr "[]")],
       [("id", Val.vstr "s4"), ("timestamp", Val.vstr "2025-01-05T02:00:00"),
        ("total", Val.vfloat 30), ("items", Val.vstr "[]")]]
      "2025-01-01T00:00:00").total_sales /
        ((get_sales_analytics
      [[("id", Val.vstr "s1"), ("timestamp", Val.vstr "2025-01-05T01:00:00"),
        ("total", Val.vfloat 10), ("items", Val.vstr "[]")],
       [("id", Val.vstr "s2"), ("timestamp", Val.vstr "2024-01-01T00:00:00"),
        ("total", Val.vfloat 99), ("items", Val.vstr "[]")],
       [("id", Val.vstr "s3"), ("timestamp", Val.vstr "2025-01-04T01:00:00"),
        ("total", Val.vfloat 20), ("items", Val.vstr "[]")],
       [("id", Val.vstr "s4"), ("timestamp", Val.vstr "2025-01-05T02:00:00"),
        ("total", Val.vfloat 30), ("items", Val.vstr "[]")]]
      "2025-01-01T00:00:00").total_transactions : Rat) :=
  (analytics_window_and_trend
    [[("id", Val.vstr "s1"), ("timestamp", Val.vstr "2025-01-05T01:00:00"),
      ("total", Val.vfloat 10), ("items", Val.vstr "[]")],
     [("id", Val.vstr "s2"), ("timestamp", Val.vstr "2024-01-01T00:00:00"),
      ("total", Val.vfloat 99), ("items", Val.vstr "[]")],
     [("id", Val.vstr "s3"), ("timestamp", Val.vstr "2025-01-04T01:00:00"),
      ("total", Val.vfloat 20), ("items", Val.vstr "[]")],
     [("id", Val.vstr "s4"), ("timestamp", Val.vstr "2025-01-05T02:00:00"),
      ("total", Val.vfloat 30), ("items", Val.vstr "[]")]]
    "2025-01-01T00:00:00"
    (by
      intro r hr
      simp only [List.mem_cons, List.not_mem_nil, or_false] at hr
      rcases hr with rfl | rfl | rfl | rfl
      · exact ⟨"2025-01-05T01:00:00", by with_unfolding_all decide⟩
      · exact ⟨"2024-01-01T00:00:00", by with_unfolding_all decide⟩
      · exact ⟨"2025-01-04T01:00:00", by with_unfolding_all decide⟩
      · exact ⟨"2025-01-05T02:00:00", by with_unfolding_all decide⟩)
    (by
      intro r hr
      simp only [List.mem_cons, List.not_mem_nil, or_false] at hr
      rcases hr with rfl | rfl | rfl | rfl
      · exact Or.inl ⟨10, by with_unfolding_all decide⟩
      · exact Or.inl ⟨99, by with_unfolding_all decide⟩
      · exact Or.inl ⟨20, by with_unfolding_all decide⟩
      · exact Or.inl ⟨30, by with_unfolding_all decide⟩)).2.1

/-- Witness for C10 at a concrete state: the sale table stays empty, the
internal error is returned, and the stock decrement of the one item
remains persisted. -/
theorem create_sale_none_paid_amount_internal_error_witness :
    create_sale
      { products := [[("id", Val.vstr "p1"), ("stock", Val.vint 5)]],
        customers := [], sales := [] }
      { customer_id := none,
        items := [{ product_id := "p1", variant_id := none, quantity := 2, price := 5,
                    product_name := none }],
        subtotal := 10, total := 10, payment_method := "cash", cashier_id := "u1",
        timestamp := some "2025-01-01T00:00:00", status := "completed",
        paid_amount := none, remaining_amount := none }
      "sale1" "2025-01-01T00:00:01" =
      (.error (.internal .floatCoercion),
       { products := (process_sale_items
           [[("id", Val.vstr "p1"), ("stock", Val.vint 5)]]
           [{ product_id := "p1", variant_id := none, quantity := 2, price := 5,
              product_name := none }]).1,
         customers := [], sales := [] }) :=
  create_sale_none_paid_amount_internal_error
    { products := [[("id", Val.vstr "p1"), ("stock", Val.vint 5)]],
      customers := [], sales := [] }
    { customer_id := none,
      items := [{ product_id := "p1", variant_id := none, quantity := 2, price := 5,
                  product_name := none }],
      subtotal := 10, total := 10, payment_method := "cash", cashier_id := "u1",
      timestamp := some "2025-01-01T00:00:00", status := "completed",
      paid_amount := none, remaining_amount := none }
    "sale1" "2025-01-01T00:00:01" rfl (by with_unfolding_all decide)

/-! ## Claim C6: the variants codec round-trips, and malformed cells
degrade to the empty list -/

theorem isNanLike_dumps_arr (l : List Json) :
    isNanLike (Val.vstr (dumps (jarrOfList l))) = false := by
  rcases l with _ | ⟨h, t⟩
  · decide
  · have hne : lowerStr (dumps (jarrOfList (h :: t))) ≠ "nan" := by
      intro he
      have hd := congrArg String.data he
      simp +decide [lowerStr, dumps, dchars, jarrOfList, asciiLower] at hd
    simp [isNanLike, hne]

theorem serializeVariants_at_list (r : Row) (vs : List ProductVariant)
    (hget : getField r ("variants") =
      some (Val.vjson (jarrOfList (vs.map variantToJson)))) :
    ProductCSVHandler.serializeVariants r =
      setField r ("variants")
        (Val.vstr (dumps (jarrOfList (vs.map variantToJson)))) := by
  rcases hsh : vs.map variantToJson with _ | ⟨j0, js⟩
  · rw [hsh] at hget
    simp only [ProductCSVHandler.serializeVariants, hget, jarrOfList]
  · rw [hsh] at hget
    simp only [ProductCSVHandler.serializeVariants, hget, jarrOfList]

theorem process_product_record_variants_str (r : Row) (s : String)
    (hget : getField r ("variants") = some (Val.vstr s))
    (hnan : isNanLike (Val.vstr s) = false) :
    getField (ProductCSVHandler.process_product_record r) ("variants") =
      some (Val.vjson ((parseJson s).getD Json.jarrNil)) := by
  simp only [ProductCSVHandler.process_product_record]
  have h1 : getField (mapVals (fun k v => if isNanLike v then ProductCSVHandler.nanRepl k else v) r)
      ("variants") = some (Val.vstr s) := by
    rw [getField_mapVals, hget]
    simp [hnan]
  have hg5 : getField (ProductCSVHandler.coerceIntField
      (ProductCSVHandler.coerceFloatField
        (ProductCSVHandler.coerceFloatField
          (ProductCSVHandler.strifyField
            (mapVals (fun k v => if isNanLike v then ProductCSVHandler.nanRepl k else v) r)
            ("id")) ("price")) ("cost")) ("stock")) ("variants") = some (Val.vstr s) := by
    rw [coerceIntField_getField_ne _ _ _ (by decide),
      coerceFloatField_getField_ne _ _ _ (by decide),
      coerceFloatField_getField_ne _ _ _ (by decide),
      strifyField_getField_ne _ _ _ (by decide), h1]
  rw [jsonDecodeField, hg5, getField_setField_self]

theorem process_product_record_variants_nan (r : Row) (v0 : Val)
    (hget : getField r ("variants") = some v0)
    (hnan : isNanLike v0 = true) :
    getField (ProductCSVHandler.process_product_record r) ("variants") =
      some (Val.vjson Json.jarrNil) := by
  simp only [ProductCSVHandler.process_product_record]
  have h1 : getField (mapVals (fun k v => if isNanLike v then ProductCSVHandler.nanRepl k else v) r)
      ("variants") = some Val.vnull := by
    rw [getField_mapVals, hget]
    simp [hnan]
    decide
  have hg5 : getField (ProductCSVHandler.coerceIntField
      (ProductCSVHandler.coerceFloatField
        (ProductCSVHandler.coerceFloatField
          (ProductCSVHandler.strifyField
            (mapVals (fun k v => if isNanLike v then ProductCSVHandler.nanRepl k else v) r)
            ("id")) ("price")) ("cost")) ("stock")) ("variants") = some Val.vnull := by
    rw [coerceIntField_getField_ne _ _ _ (by decide),
      coerceFloatField_getField_ne _ _ _ (by decide),
      coerceFloatField_getField_ne _ _ _ (by decide),
      strifyField_getField_ne _ _ _ (by decide), h1]
  rw [jsonDecodeField, hg5, getField_setField_self]

/-- C6: the product variants codec round-trips, and malformed cells
degrade to the empty list.  First, `json.loads` of `json.dumps` of any
serialized variant list is exactly that value.  Second, at the handler
level: a row whose `variants` cell holds any in-memory variant list,
once serialized by `ProductCSVHandler`\'s write path and decoded by
`_process_product_record`, carries a structurally equal variant list.
Third, a `variants` cell holding any text that `json.loads` rejects
decodes to the empty list rather than any failure value. -/
theorem variants_codec_round_trip :
    (∀ vs : List ProductVariant,
      parseJson (dumps (jarrOfList (vs.map variantToJson))) =
        some (jarrOfList (vs.map variantToJson))) ∧
    (∀ (r : Row) (vs : List ProductVariant),
      getField r ("variants") = some (Val.vjson (jarrOfList (vs.map variantToJson))) →
      getField (ProductCSVHandler.process_product_record
          (ProductCSVHandler.serializeVariants r)) ("variants") =
        some (Val.vjson (jarrOfList (vs.map variantToJson)))) ∧
    (∀ (r : Row) (s : String),
      getField r ("variants") = some (Val.vstr s) → parseJson s = none →
      getField (ProductCSVHandler.process_product_record r) ("variants") =
        some (Val.vjson Json.jarrNil)) := by
  refine ⟨parseJson_dumps_variants, ?_, ?_⟩
  · intro r vs hget
    rw [serializeVariants_at_list r vs hget]
    rw [process_product_record_variants_str _ _
      (getField_setField_self r ("variants") _) (isNanLike_dumps_arr _)]
    rw [parseJson_dumps_variants]
    rfl
  · intro r s hget hbad
    by_cases hnan : isNanLike (Val.vstr s) = true
    · exact process_product_record_variants_nan r _ hget hnan
    · rw [process_product_record_variants_str r s hget
        (Bool.not_eq_true _ ▸ hnan), hbad]
      rfl

/-- Witness for C6: a one-variant list survives the encode–decode cycle
on a concrete row, and a non-JSON `variants` cell decodes to the empty
list. -/
theorem variants_codec_round_trip_witness :
    getField (ProductCSVHandler.process_product_record
        (ProductCSVHandler.serializeVariants
          [(("variants"), Val.vjson (jarrOfList
            (([⟨"v1", "M", "red", 3, "SKU1"⟩] : List ProductVariant).map variantToJson)))]))
        ("variants") =
      some (Val.vjson (jarrOfList
        (([⟨"v1", "M", "red", 3, "SKU1"⟩] : List ProductVariant).map variantToJson))) ∧
    getField (ProductCSVHandler.process_product_record
        [(("variants"), Val.vstr "not json")]) ("variants") =
      some (Val.vjson Json.jarrNil) :=
  ⟨variants_codec_round_trip.2.1 _ [⟨"v1", "M", "red", 3, "SKU1"⟩]
      (by with_unfolding_all decide),
   variants_codec_round_trip.2.2 _ ("not json")
      (by with_unfolding_all decide) (by with_unfolding_all decide)⟩

end BoutiquePos
